import Mathlib

/-!
Shallow embedding of the retrieval-and-disambiguation pipeline of the
UC Leeds RAG chatbot (the Express server variant, `server.js`).

Modelling conventions:
* JavaScript floating-point relevance scores are modelled as exact rationals
  (`ℚ`); every score and tolerance appearing in the source is an exact decimal,
  and no comparison settled below is close enough to a binary64 rounding
  boundary for the idealisation to change its outcome.
* JavaScript strings are processed as `List Char`; `toLowerCase` is modelled by
  mapping `Char.toLower` (the source only lowercases ASCII course data).
* The regular expressions of the source are compiled by hand into structural
  scanning functions with JavaScript semantics (leftmost match, alternation
  priority, greedy bounded repetition with backtracking).
* `async` collaborator calls (embedding + vector search, text generation) are
  modelled as explicit oracle functions returning `Except Unit`, where
  `.error` stands for a thrown exception.
-/

namespace RagPipeline

/-- Characters matched by the regex class \s, restricted to the ASCII forms
    that occur in the data handled by the server. -/
def isWs (c : Char) : Bool :=
  c == ' ' || c == '\t' || c == '\n' || c == '\r'

/-- Lowercased character list of a string: models JavaScript toLowerCase for
    the ASCII strings the server handles. -/
def lowerChars (s : String) : List Char :=
  s.data.map Char.toLower

/-- Substring containment on char lists (JavaScript String.prototype.includes). -/
def infixOfChars (needle : List Char) : List Char → Bool
  | [] => needle.isEmpty
  | c :: t => needle.isPrefixOf (c :: t) || infixOfChars needle t

/-- JavaScript s.includes(sub) for strings that are already lowercased. -/
def strIncludes (s sub : String) : Bool :=
  infixOfChars sub.data s.data

/-- JavaScript s.toLowerCase().includes(sub). -/
def lowerIncludes (s sub : String) : Bool :=
  infixOfChars sub.data (lowerChars s)

/-- Test for a regex that is an alternation of literals, /lit1|lit2|.../i.test(s). -/
def anySubstr (alts : List String) (s : String) : Bool :=
  alts.any (fun a => lowerIncludes s a)

/-- JavaScript String.prototype.trim on a char list. -/
def trimChars (cs : List Char) : List Char :=
  ((cs.dropWhile isWs).reverse.dropWhile isWs).reverse

/-- JavaScript String.prototype.trim. -/
def jsTrim (s : String) : String :=
  ⟨trimChars s.data⟩

/-- JavaScript truthiness of a possibly-undefined string (undefined and "" are falsy). -/
def isTruthy : Option String → Bool
  | none => false
  | some s => !(s == "")

/-- JavaScript `a || b` for a possibly-undefined string with a string fallback. -/
def jsOrStr (a : Option String) (b : String) : String :=
  match a with
  | some s => if s == "" then b else s
  | none => b

/-- JavaScript `a || b` where both operands may be undefined. -/
def jsOrOpt (a b : Option String) : Option String :=
  if isTruthy a then a else b

/-- How a possibly-undefined string renders inside a JavaScript template literal. -/
def tmpl (o : Option String) : String :=
  match o with
  | some s => s
  | none => "undefined"

/-- Metadata of a vector-store record: an ordered string-to-string mapping,
    mirroring a JavaScript object. -/
abbrev Metadata := List (String × String)

/-- Field access metadata.key (undefined when absent). -/
def getMeta (md : Metadata) (key : String) : Option String :=
  (md.find? (fun kv => kv.1 == key)).map (fun kv => kv.2)

/-- One retrievable unit returned by the vector-search collaborator.
    The source mutates a transient `_hierarchySource` marker onto fetched
    matches; it is never read back by anything observable, so it is omitted. -/
structure Record where
  id : String
  score : ℚ
  metadata : Metadata
deriving DecidableEq, Repr

/-- One turn of the conversation history. -/
structure Msg where
  role : String
  content : String
deriving DecidableEq, Repr

/-! ## Response Cache (server.js getCachedQuery / cacheQuery)

The JavaScript Map is modelled as an association list in insertion order;
Map.set on an existing key updates in place, Map.delete removes the single
occurrence, and the first list element is the oldest insertion. `CACHE_MAX_SIZE`
and `CACHE_TTL` are module-level configuration constants in the source; the
operations below take them as explicit arguments and the server values are the
constants `CACHE_MAX_SIZE` and `CACHE_TTL`. -/

structure CacheEntry (α : Type) where
  data : α
  timestamp : Nat
deriving DecidableEq, Repr

abbrev CacheStore (α : Type) := List (String × CacheEntry α)

/-- Map.prototype.get by key. -/
def lookupStore {α : Type} (st : CacheStore α) (key : String) : Option (CacheEntry α) :=
  (st.find? (fun kv => kv.1 == key)).map (fun kv => kv.2)

/-- Map.prototype.set: replace in place if the key exists, else append. -/
def mapSet {α : Type} (st : CacheStore α) (key : String) (e : CacheEntry α) : CacheStore α :=
  match st with
  | [] => [(key, e)]
  | kv :: rest => if kv.1 == key then (key, e) :: rest else kv :: mapSet rest key e

/-- Map.prototype.delete. -/
def mapDelete {α : Type} (st : CacheStore α) (key : String) : CacheStore α :=
  match st with
  | [] => []
  | kv :: rest => if kv.1 == key then rest else kv :: mapDelete rest key

/-- Maximum number of cached queries configured in server.js. -/
def CACHE_MAX_SIZE : Nat := 1000

/-- Cache TTL configured in server.js: 30 minutes in milliseconds. -/
def CACHE_TTL : Nat := 1000 * 60 * 30

/-- getCachedQuery from server.js. Returns the hit (if any) together with the
    store after the lazy TTL eviction the read performs. -/
def getCachedQuery {α : Type} (ttl : Nat) (st : CacheStore α) (queryKey : String)
    (now : Nat) : Option α × CacheStore α :=
  match lookupStore st queryKey with
  | none => (none, st)
  | some cached =>
      if now - cached.timestamp > ttl then (none, mapDelete st queryKey)
      else (some cached.data, st)

/-- cacheQuery from server.js: when the store is at (or beyond) capacity the
    entry at the first key — the oldest insertion — is deleted, then the new
    entry is stored. -/
def cacheQuery {α : Type} (maxSize : Nat) (st : CacheStore α) (queryKey : String)
    (d : α) (now : Nat) : CacheStore α :=
  let st1 :=
    if st.length ≥ maxSize then
      match st with
      | [] => []
      | _ :: rest => rest
    else st
  mapSet st1 queryKey ⟨d, now⟩

/-- Cache key used by the /api/chat route: namespace, colon, trimmed lowercased message. -/
def cacheKey (ns message : String) : String :=
  ns ++ ":" ++ ⟨lowerChars (jsTrim message)⟩

/-! ### Cache lemmas -/

theorem lookupStore_mapSet_self {α : Type} (st : CacheStore α) (k : String)
    (e : CacheEntry α) : lookupStore (mapSet st k e) k = some e := by
  induction st with
  | nil => simp [mapSet, lookupStore, List.find?]
  | cons kv rest ih =>
      by_cases h : kv.1 == k
      · simp [mapSet, h, lookupStore, List.find?]
      · simp only [mapSet, h, if_false, Bool.false_eq_true, if_neg]
        simpa [lookupStore, List.find?, h] using ih

theorem lookupStore_mapSet_ne {α : Type} (st : CacheStore α) (k k2 : String)
    (e : CacheEntry α) (h : k2 ≠ k) :
    lookupStore (mapSet st k e) k2 = lookupStore st k2 := by
  induction st with
  | nil =>
      simp [mapSet, lookupStore, List.find?, show (k == k2) = false by
        simpa [beq_iff_eq] using fun hh => h hh.symm]
  | cons kv rest ih =>
      by_cases hk : kv.1 == k
      · have hkv : kv.1 = k := by simpa [beq_iff_eq] using hk
        simp [mapSet, hk, lookupStore, List.find?, hkv,
          show (k == k2) = false by simpa [beq_iff_eq] using fun hh => h hh.symm,
          show (kv.1 == k2) = false by
            simpa [beq_iff_eq, hkv] using fun hh => h hh.symm]
      · by_cases hk2 : kv.1 == k2
        · simp [mapSet, hk, lookupStore, List.find?, hk2]
        · simp only [mapSet, hk, Bool.false_eq_true, if_neg, if_false]
          simpa [lookupStore, List.find?, hk2] using ih

theorem length_mapSet_le {α : Type} (st : CacheStore α) (k : String) (e : CacheEntry α) :
    (mapSet st k e).length ≤ st.length + 1 := by
  induction st with
  | nil => simp [mapSet]
  | cons kv rest ih =>
      by_cases h : kv.1 == k
      · simp [mapSet, h]
      · simp only [mapSet, h, Bool.false_eq_true, if_neg, if_false, List.length_cons]
        omega

theorem cacheQuery_length_le {α : Type} (maxSize : Nat) (st : CacheStore α)
    (k : String) (d : α) (now : Nat) (hpos : 0 < maxSize) (hle : st.length ≤ maxSize) :
    (cacheQuery maxSize st k d now).length ≤ maxSize := by
  unfold cacheQuery
  by_cases h : st.length ≥ maxSize
  · have heq : st.length = maxSize := le_antisymm hle h
    cases st with
    | nil => simp at heq; omega
    | cons kv rest =>
        simp only [h, if_pos]
        have := length_mapSet_le rest k (⟨d, now⟩ : CacheEntry α)
        simp only [List.length_cons] at heq
        omega
  · simp only [h, if_neg, if_false]
    have := length_mapSet_le st k (⟨d, now⟩ : CacheEntry α)
    omega

theorem lookupStore_mapDelete_self {α : Type} (st : CacheStore α) (k : String)
    (hnd : (st.map Prod.fst).Nodup) : lookupStore (mapDelete st k) k = none := by
  induction st with
  | nil => simp [mapDelete, lookupStore, List.find?]
  | cons kv rest ih =>
      simp only [List.map_cons, List.nodup_cons] at hnd
      by_cases h : kv.1 == k
      · have hkv : kv.1 = k := by simpa [beq_iff_eq] using h
        have : ∀ kv2 ∈ rest, ¬(kv2.1 == k) = true := by
          intro kv2 hmem hbeq
          have heq2 : kv2.1 = k := by simpa [beq_iff_eq] using hbeq
          have hmm : kv2.1 ∈ rest.map Prod.fst := List.mem_map_of_mem Prod.fst hmem
          rw [heq2, ← hkv] at hmm
          exact hnd.1 hmm
        simp only [mapDelete, h, if_pos]
        simp [lookupStore, List.find?_eq_none.mpr this]
      · simp only [mapDelete, h, Bool.false_eq_true, if_neg, if_false]
        simpa [lookupStore, List.find?, h] using ih hnd.2

theorem mapSet_mem_cases {α : Type} (st : CacheStore α) (k : String) (e : CacheEntry α)
    (kv : String × CacheEntry α) (h : kv ∈ mapSet st k e) : kv ∈ st ∨ kv = (k, e) := by
  induction st with
  | nil => simpa [mapSet] using h
  | cons kv0 rest ih =>
      by_cases h0 : kv0.1 == k
      · simp only [mapSet, h0, if_pos, List.mem_cons] at h
        rcases h with h | h
        · exact Or.inr h
        · exact Or.inl (List.mem_cons_of_mem _ h)
      · simp only [mapSet, h0, Bool.false_eq_true, if_neg, if_false, List.mem_cons] at h
        rcases h with h | h
        · exact Or.inl (by simp [h])
        · rcases ih h with h2 | h2
          · exact Or.inl (List.mem_cons_of_mem _ h2)
          · exact Or.inr h2

theorem nodupKeys_mapSet {α : Type} (st : CacheStore α) (k : String) (e : CacheEntry α)
    (hnd : (st.map Prod.fst).Nodup) : ((mapSet st k e).map Prod.fst).Nodup := by
  induction st with
  | nil => simp [mapSet]
  | cons kv rest ih =>
      simp only [List.map_cons, List.nodup_cons] at hnd
      by_cases h : kv.1 == k
      · have hkv : kv.1 = k := by simpa [beq_iff_eq] using h
        simp only [mapSet, h, if_pos, List.map_cons, List.nodup_cons]
        exact ⟨by simpa [hkv] using hnd.1, hnd.2⟩
      · have hkv : kv.1 ≠ k := by simpa [beq_iff_eq] using h
        simp only [mapSet, h, Bool.false_eq_true, if_neg, if_false, List.map_cons,
          List.nodup_cons]
        constructor
        · intro hmem
          rcases List.mem_map.mp hmem with ⟨kv2, hkv2, hfst⟩
          have : kv2 ∈ rest ∨ kv2 = (k, e) := by
            have := mapSet_mem_cases rest k e kv2 hkv2
            exact this
          rcases this with hr | hkeq
          · exact hnd.1 (by simpa [hfst] using List.mem_map_of_mem Prod.fst hr)
          · exact hkv (by simpa [hkeq] using hfst.symm)
        · exact ih hnd.2

/-- C5: the Response Cache never holds more than its configured maximum number
    of entries — any sequence of insertions starting within the bound (in
    particular maxEntries + 1 distinct keys starting from empty) leaves at most
    maxEntries entries — and an insertion beyond capacity evicts the oldest
    (first-inserted) entry before storing the new one. -/
theorem c5_cache_bounded_and_evicts_oldest :
    (∀ (α : Type) (maxSize now : Nat) (ops : List (String × α)) (st : CacheStore α),
      0 < maxSize → st.length ≤ maxSize →
      (ops.foldl (fun c kv => cacheQuery maxSize c kv.1 kv.2 now) st).length ≤ maxSize) ∧
    (∀ (α : Type) (maxSize now : Nat) (k0 : String) (e0 : CacheEntry α)
      (rest : CacheStore α) (k : String) (d : α),
      ((k0, e0) :: rest).length = maxSize → k ≠ k0 → (∀ kv ∈ rest, kv.1 ≠ k0) →
      lookupStore (cacheQuery maxSize ((k0, e0) :: rest) k d now) k0 = none ∧
      lookupStore (cacheQuery maxSize ((k0, e0) :: rest) k d now) k =
        some ⟨d, now⟩) := by
  constructor
  · intro α maxSize now ops
    induction ops with
    | nil => intro st hpos hle; simpa using hle
    | cons kv rest ih =>
        intro st hpos hle
        simpa using ih (cacheQuery maxSize st kv.1 kv.2 now)
          hpos (cacheQuery_length_le maxSize st kv.1 kv.2 now hpos hle)
  · intro α maxSize now k0 e0 rest k d hlen hne hrest
    have hge : ((k0, e0) :: rest).length ≥ maxSize := le_of_eq hlen.symm
    have hcq : cacheQuery maxSize ((k0, e0) :: rest) k d now =
        mapSet rest k ⟨d, now⟩ := by
      unfold cacheQuery
      have hc : maxSize ≤ rest.length + 1 := by simpa using hge
      simp [hc]
    constructor
    · rw [hcq, lookupStore_mapSet_ne rest k k0 ⟨d, now⟩ (fun hh => hne hh.symm)]
      have : ∀ kv ∈ rest, ¬(kv.1 == k0) = true := by
        intro kv hmem hbeq
        exact hrest kv hmem (by simpa [beq_iff_eq] using hbeq)
      simp [lookupStore, List.find?_eq_none.mpr this]
    · rw [hcq]
      exact lookupStore_mapSet_self rest k ⟨d, now⟩

/-- Witness for C5 at concrete inputs: capacity 1, two distinct keys. -/
theorem c5_witness :
    (([("a", (1 : Nat)), ("b", 2)].foldl
        (fun c kv => cacheQuery 1 c kv.1 kv.2 0) ([] : CacheStore Nat)).length ≤ 1) ∧
    lookupStore (cacheQuery 1 [("a", (⟨5, 0⟩ : CacheEntry Nat))] "b" 7 3) "a" = none ∧
    lookupStore (cacheQuery 1 [("a", (⟨5, 0⟩ : CacheEntry Nat))] "b" 7 3) "b" =
      some ⟨7, 3⟩ := by
  refine ⟨?_, ?_, ?_⟩
  · exact c5_cache_bounded_and_evicts_oldest.1 Nat 1 0 [("a", 1), ("b", 2)] []
      (by decide) (by decide)
  · exact (c5_cache_bounded_and_evicts_oldest.2 Nat 1 3 "a" ⟨5, 0⟩ [] "b" 7
      (by decide) (by decide) (by intro kv h; cases h)).1
  · exact (c5_cache_bounded_and_evicts_oldest.2 Nat 1 3 "a" ⟨5, 0⟩ [] "b" 7
      (by decide) (by decide) (by intro kv h; cases h)).2

/-- C6: cache round-trip with TTL — a set followed immediately by a get on the
    same (namespace, query) key returns the payload unchanged, and once more
    than ttlMs has elapsed since the write, the get returns absent and deletes
    the expired entry from the store on that read. -/
theorem c6_cache_roundtrip_ttl :
    (∀ (α : Type) (maxSize ttl now : Nat) (st : CacheStore α) (ns q : String)
      (payload : α),
      (getCachedQuery ttl (cacheQuery maxSize st (cacheKey ns q) payload now)
        (cacheKey ns q) now).1 = some payload) ∧
    (∀ (α : Type) (maxSize ttl now later : Nat) (st : CacheStore α) (ns q : String)
      (payload : α),
      (st.map Prod.fst).Nodup → now + ttl < later →
      (getCachedQuery ttl (cacheQuery maxSize st (cacheKey ns q) payload now)
        (cacheKey ns q) later).1 = none ∧
      lookupStore
        (getCachedQuery ttl (cacheQuery maxSize st (cacheKey ns q) payload now)
          (cacheKey ns q) later).2 (cacheKey ns q) = none) := by
  have hlook : ∀ (α : Type) (maxSize now : Nat) (st : CacheStore α) (key : String)
      (payload : α),
      lookupStore (cacheQuery maxSize st key payload now) key =
        some ⟨payload, now⟩ := by
    intro α maxSize now st key payload
    unfold cacheQuery
    by_cases h : st.length ≥ maxSize
    · cases st with
      | nil => simp [h, lookupStore_mapSet_self]
      | cons kv rest => simp [h, lookupStore_mapSet_self]
    · simp [h, lookupStore_mapSet_self]
  constructor
  · intro α maxSize ttl now st ns q payload
    unfold getCachedQuery
    rw [hlook]
    simp
  · intro α maxSize ttl now later st ns q payload hnd hlt
    have hnodup1 : ((cacheQuery maxSize st (cacheKey ns q) payload now).map
        Prod.fst).Nodup := by
      unfold cacheQuery
      by_cases h : st.length ≥ maxSize
      · cases st with
        | nil => simpa [h] using nodupKeys_mapSet [] (cacheKey ns q) ⟨payload, now⟩ (by simp)
        | cons kv rest =>
            simp only [List.map_cons, List.nodup_cons] at hnd
            have hc : maxSize ≤ rest.length + 1 := by simpa using h
            simpa [hc] using nodupKeys_mapSet rest (cacheKey ns q) ⟨payload, now⟩ hnd.2
      · simpa [h] using nodupKeys_mapSet st (cacheKey ns q) ⟨payload, now⟩ hnd
    have hexp : later - now > ttl := by omega
    have hres : getCachedQuery ttl
        (cacheQuery maxSize st (cacheKey ns q) payload now) (cacheKey ns q) later =
        (none, mapDelete (cacheQuery maxSize st (cacheKey ns q) payload now)
          (cacheKey ns q)) := by
      unfold getCachedQuery
      rw [hlook]
      simp [hexp]
    rw [hres]
    exact ⟨rfl, lookupStore_mapDelete_self _ _ hnodup1⟩

/-- Witness for C6 at concrete inputs: empty store, ttl 10, write at 0, read at 0 and 11. -/
theorem c6_witness :
    (getCachedQuery 10 (cacheQuery 5 ([] : CacheStore Nat) (cacheKey "ns" "q") 42 0)
      (cacheKey "ns" "q") 0).1 = some 42 ∧
    (getCachedQuery 10 (cacheQuery 5 ([] : CacheStore Nat) (cacheKey "ns" "q") 42 0)
      (cacheKey "ns" "q") 11).1 = none ∧
    lookupStore
      (getCachedQuery 10 (cacheQuery 5 ([] : CacheStore Nat) (cacheKey "ns" "q") 42 0)
        (cacheKey "ns" "q") 11).2 (cacheKey "ns" "q") = none := by
  refine ⟨?_, ?_, ?_⟩
  · exact c6_cache_roundtrip_ttl.1 Nat 5 10 0 [] "ns" "q" 42
  · exact (c6_cache_roundtrip_ttl.2 Nat 5 10 0 11 [] "ns" "q" 42 (by simp) (by decide)).1
  · exact (c6_cache_roundtrip_ttl.2 Nat 5 10 0 11 [] "ns" "q" 42 (by simp) (by decide)).2

/-! ## Hand-compiled regular expressions of the Context Extractor

Each function models one regex from server.js with JavaScript match semantics:
the scan advances one position at a time, at each position the alternatives are
tried in source order, and greedy bounded repetition backtracks from the
longest repetition downwards. -/

/-- Alternative `year\s*(\d)` of /year\s*(\d)|(\d)(?:st|nd|rd|th)\s+year/i tried
    at the current position; returns the captured digit. Since a digit is not
    whitespace, the greedy \s* never needs to backtrack. -/
def yearAlt1 (cs : List Char) : Option Char :=
  match cs with
  | 'y' :: 'e' :: 'a' :: 'r' :: rest =>
      match rest.dropWhile isWs with
      | d :: _ => if d.isDigit then some d else none
      | [] => none
  | _ => none

/-- Alternative `(\d)(?:st|nd|rd|th)\s+year` tried at the current position. -/
def yearAlt2 (cs : List Char) : Option Char :=
  match cs with
  | d :: s1 :: s2 :: rest =>
      if d.isDigit &&
          ((s1 == 's' && s2 == 't') || (s1 == 'n' && s2 == 'd') ||
           (s1 == 'r' && s2 == 'd') || (s1 == 't' && s2 == 'h')) then
        match rest with
        | c :: _ =>
            if isWs c then
              match rest.dropWhile isWs with
              | 'y' :: 'e' :: 'a' :: 'r' :: _ => some d
              | _ => none
            else none
        | [] => none
      else none
  | _ => none

/-- Leftmost match of /year\s*(\d)|(\d)(?:st|nd|rd|th)\s+year/i on a lowercased
    char list, returning the captured digit (yearMatch[1] || yearMatch[2]). -/
def findYearDigit : List Char → Option Char
  | [] => none
  | c :: t =>
      match yearAlt1 (c :: t) with
      | some d => some d
      | none =>
          match yearAlt2 (c :: t) with
          | some d => some d
          | none => findYearDigit t

/-- Alternative `year\s+(\d+)` of /year\s+(\d+)|(\d+)(?:st|nd|rd|th)\s+year/
    (the extractQueryMetadata variant: one or more spaces, multi-digit capture). -/
def yearBAlt1 (cs : List Char) : Option String :=
  match cs with
  | 'y' :: 'e' :: 'a' :: 'r' :: rest =>
      match rest with
      | c :: _ =>
          if isWs c then
            let ds := (rest.dropWhile isWs).takeWhile Char.isDigit
            if ds.isEmpty then none else some ⟨ds⟩
          else none
      | [] => none
  | _ => none

/-- Alternative `(\d+)(?:st|nd|rd|th)\s+year` tried at the current position.
    The ordinal suffix starts with a non-digit, so the greedy \d+ never
    backtracks below the maximal digit run. -/
def yearBAlt2 (cs : List Char) : Option String :=
  let ds := cs.takeWhile Char.isDigit
  if ds.isEmpty then none
  else
    match cs.dropWhile Char.isDigit with
    | s1 :: s2 :: rest =>
        if ((s1 == 's' && s2 == 't') || (s1 == 'n' && s2 == 'd') ||
            (s1 == 'r' && s2 == 'd') || (s1 == 't' && s2 == 'h')) then
          match rest with
          | c :: _ =>
              if isWs c then
                match rest.dropWhile isWs with
                | 'y' :: 'e' :: 'a' :: 'r' :: _ => some ⟨ds⟩
                | _ => none
              else none
          | [] => none
        else none
    | _ => none

/-- Leftmost match of /year\s+(\d+)|(\d+)(?:st|nd|rd|th)\s+year/ returning the
    captured digit string. -/
def findYearB : List Char → Option String
  | [] => none
  | c :: t =>
      match yearBAlt1 (c :: t) with
      | some y => some y
      | none =>
          match yearBAlt2 (c :: t) with
          | some y => some y
          | none => findYearB t

/-- Attempt of /semester\s*(\d)/i at the current position. -/
def semAlt (cs : List Char) : Option Char :=
  match cs with
  | 's' :: 'e' :: 'm' :: 'e' :: 's' :: 't' :: 'e' :: 'r' :: rest =>
      match rest.dropWhile isWs with
      | d :: _ => if d.isDigit then some d else none
      | [] => none
  | _ => none

/-- Leftmost match of /semester\s*(\d)/i returning the captured digit. -/
def findSemDigit : List Char → Option Char
  | [] => none
  | c :: t =>
      match semAlt (c :: t) with
      | some d => some d
      | none => findSemDigit t

/-- Attempt of the literal-plus-digit alternative `week \d+` at the current position. -/
def weekDigitAt (cs : List Char) : Bool :=
  match cs with
  | 'w' :: 'e' :: 'e' :: 'k' :: ' ' :: d :: _ => d.isDigit
  | _ => false

/-- Test for `week \d+` anywhere in a lowercased char list. -/
def hasWeekDigit : List Char → Bool
  | [] => false
  | c :: t => weekDigitAt (c :: t) || hasWeekDigit t

/-- The alternative literals matched at one position, in alternation order;
    returns the matched literal (match[0] of a literal alternation regex). -/
def altPrefixAt (alts : List String) (cs : List Char) : Option String :=
  alts.findSome? (fun a => if a.data.isPrefixOf cs then some a else none)

/-- Leftmost match of an alternation of literals, returning match[0]. -/
def findAltMatch (alts : List String) : List Char → Option String
  | [] => none
  | c :: t =>
      match altPrefixAt alts (c :: t) with
      | some a => some a
      | none => findAltMatch alts t

/-- Characters of the regex class [a-z\s]. -/
def isModNameChar (c : Char) : Bool :=
  c.isLower || isWs c

/-- One greedy attempt of `[a-z][a-z\s]{k}` at the current position with a
    continuation test on the remainder; returns the captured group. -/
def tryBodyK (cs : List Char) (k : Nat) (cont : List Char → Bool) :
    Option (List Char) :=
  match cs with
  | c0 :: rest =>
      if c0.isLower then
        let body := rest.take k
        if body.length == k && body.all isModNameChar && cont (rest.drop k) then
          some (c0 :: body)
        else none
      else none
  | [] => none

/-- Greedy backtracking over the repetition counts of `[a-z][a-z\s]{3,30}`,
    longest first, as the regex engine would try them. -/
def tryBodyRange (cs : List Char) (cont : List Char → Bool) :
    List Nat → Option (List Char)
  | [] => none
  | k :: ks =>
      match tryBodyK cs k cont with
      | some b => some b
      | none => tryBodyRange cs cont ks

/-- Repetition counts 30 down to 3 for the bounded quantifier \x7b3,30\x7d. -/
def bodyKs : List Nat :=
  (List.range 28).map (fun i => 30 - i)

/-- Continuation of pattern 2 after the captured group: `\s+module`. The
    literal starts with a non-space, so the greedy \s+ never backtracks. -/
def pat2Cont (cs : List Char) : Bool :=
  match cs with
  | c :: _ =>
      isWs c &&
        (match cs.dropWhile isWs with
         | 'm' :: 'o' :: 'd' :: 'u' :: 'l' :: 'e' :: _ => true
         | _ => false)
  | [] => false

/-- Attempt of /(?:the\s+)?([a-z][a-z\s]{3,30})\s+module/i at the current
    position: the greedy optional prefix is tried first; returns capture 1. -/
def pat2At (cs : List Char) : Option (List Char) :=
  let withThe : Option (List Char) :=
    match cs with
    | 't' :: 'h' :: 'e' :: rest =>
        match rest with
        | c :: _ =>
            if isWs c then tryBodyRange (rest.dropWhile isWs) pat2Cont bodyKs
            else none
        | [] => none
    | _ => none
  match withThe with
  | some b => some b
  | none => tryBodyRange cs pat2Cont bodyKs

/-- Leftmost match of pattern 2, returning capture 1. -/
def findPat2 : List Char → Option (List Char)
  | [] => none
  | c :: t =>
      match pat2At (c :: t) with
      | some b => some b
      | none => findPat2 t

/-- Attempt of /(?:module[:\s]+|about\s+(?:the\s+)?)([a-z][a-z\s]{3,30})(?:\s+module)?/i
    at the current position, returning capture 1. The trailing optional group
    cannot affect the greedy capture, and the separators before the capture are
    not in [a-z], so their greedy runs are maximal. -/
def pat3At (cs : List Char) : Option (List Char) :=
  let afterModuleKw : Option (List Char) :=
    match cs with
    | 'm' :: 'o' :: 'd' :: 'u' :: 'l' :: 'e' :: rest =>
        match rest with
        | c :: _ =>
            if c == ':' || isWs c then
              some (rest.dropWhile (fun x => x == ':' || isWs x))
            else none
        | [] => none
    | _ => none
  match afterModuleKw with
  | some rest2 => tryBodyRange rest2 (fun _ => true) bodyKs
  | none =>
      match cs with
      | 'a' :: 'b' :: 'o' :: 'u' :: 't' :: rest =>
          match rest with
          | c :: _ =>
              if isWs c then
                let rest2 := rest.dropWhile isWs
                let withThe : Option (List Char) :=
                  match rest2 with
                  | 't' :: 'h' :: 'e' :: rest3 =>
                      match rest3 with
                      | c2 :: _ =>
                          if isWs c2 then
                            tryBodyRange (rest3.dropWhile isWs) (fun _ => true) bodyKs
                          else none
                      | [] => none
                  | _ => none
                match withThe with
                | some b => some b
                | none => tryBodyRange rest2 (fun _ => true) bodyKs
              else none
          | [] => none
      | _ => none

/-- Leftmost match of pattern 3, returning capture 1. -/
def findPat3 : List Char → Option (List Char)
  | [] => none
  | c :: t =>
      match pat3At (c :: t) with
      | some b => some b
      | none => findPat3 t

/-! ## Context Extractor (extractConversationContext, extractQueryMetadata) -/

/-- The derived per-request snapshot of hints from history plus current query. -/
structure ConversationContext where
  course : Option String
  module : Option String
  year : Option String
  semester : Option String
  assessment : Option String
  hasSpecificCourse : Bool
  hasSpecificModule : Bool
  hasSpecificAssessment : Bool
  hasSpecificYear : Bool
deriving DecidableEq, Repr

/-- The initial context object of extractConversationContext. -/
def emptyContext : ConversationContext :=
  ⟨none, none, none, none, none, false, false, false, false⟩

/-- The named-module noun alternation of specificModulePatterns[0]. -/
def moduleNouns : List String :=
  ["psychology", "anatomy", "physiology", "training", "fitness", "nutrition",
   "sport", "professional", "research", "academic", "health", "wellbeing",
   "leadership", "management", "injury", "rehabilitation", "independent",
   "study", "performance", "analysis"]

/-- Generic words excluded from module-name detection. -/
def genericWords : List String :=
  ["the", "a", "an", "my", "your", "this", "that", "what", "which",
   "assessments", "deadlines", "modules"]

/-- The literal alternation of the assessment-type regex. -/
def assessmentWords : List String :=
  ["essay", "presentation", "portfolio", "exam", "coursework", "report",
   "practical", "case study", "project", "dissertation"]

/-- Update of the context from one module-pattern match result
    (moduleName = match[1] || match[0], then the length and generic-word gate). -/
def setModuleFromName (ctx : ConversationContext) (name : Option (List Char)) :
    ConversationContext :=
  match name with
  | none => ctx
  | some cs =>
      let nm : String := ⟨cs⟩
      if nm.length > 4 && !(genericWords.contains (jsTrim nm)) then
        { ctx with module := some (jsTrim nm), hasSpecificModule := true }
      else ctx

/-- One iteration of the content loop of extractConversationContext. -/
def updateContextWithContent (ctx0 : ConversationContext) (content : String) :
    ConversationContext :=
  let lower := lowerChars content
  let ls : String := ⟨lower⟩
  let ctx1 :=
    if strIncludes ls "fd " || strIncludes ls "foundation degree" ||
        strIncludes ls "fd-" then
      { ctx0 with course := some "FD", hasSpecificCourse := true }
    else if strIncludes ls "bsc" || strIncludes ls "bachelor" ||
        strIncludes ls "top-up" || strIncludes ls "top up" then
      { ctx0 with course := some "BSc", hasSpecificCourse := true }
    else ctx0
  let ctx2 :=
    match findYearDigit lower with
    | some d => { ctx1 with year := some ⟨[d]⟩, hasSpecificYear := true }
    | none => ctx1
  let ctx3 :=
    match findSemDigit lower with
    | some d => { ctx2 with semester := some ⟨[d]⟩ }
    | none => ctx2
  let ctx4 := setModuleFromName ctx3 ((findAltMatch moduleNouns lower).map String.data)
  let ctx5 := setModuleFromName ctx4 (findPat2 lower)
  let ctx6 := setModuleFromName ctx5 (findPat3 lower)
  match findAltMatch assessmentWords lower with
  | some a => { ctx6 with assessment := some a, hasSpecificAssessment := true }
  | none => ctx6

/-- extractConversationContext from server.js: last six history turns followed
    by the current query, folded through the per-content update. -/
def extractConversationContext (hist : List Msg) (currentQuery : String) :
    ConversationContext :=
  let allContent := (hist.drop (hist.length - 6)).map Msg.content ++ [currentQuery]
  allContent.foldl updateContextWithContent emptyContext

/-- The metadata-filter object produced by extractQueryMetadata: an optional
    year plus the internal _courseContext note. -/
structure QueryMetadata where
  year : Option String
  courseContext : Option String
deriving DecidableEq, Repr

/-- Course hit of one history message in extractQueryMetadata (BSc checked first). -/
def msgCourseHit (m : Msg) : Option String :=
  let ml : String := ⟨lowerChars m.content⟩
  if strIncludes ml "bsc" || strIncludes ml "bachelor" || strIncludes ml "honours" ||
      strIncludes ml "hons" then
    some "BSc"
  else if strIncludes ml "fd" || strIncludes ml "foundation" then
    some "FD"
  else none

/-- The backwards history scan of extractQueryMetadata, stopping at the first hit. -/
def historyCourseContext (hist : List Msg) : Option String :=
  hist.reverse.findSome? msgCourseHit

/-- Course context after the current query override (the query check overrides
    the history value only when the query itself matches). -/
def queryCourseContext (query : String) (hist : List Msg) : Option String :=
  let ql : String := ⟨lowerChars query⟩
  if strIncludes ql "bsc" || strIncludes ql "bachelor" || strIncludes ql "honours" ||
      strIncludes ql "hons" || strIncludes ql "top-up" || strIncludes ql "top up" then
    some "BSc"
  else if strIncludes ql "fd" || strIncludes ql "foundation" then
    some "FD"
  else historyCourseContext hist

/-- extractQueryMetadata from server.js: year from the query-year regex, then
    the documented business rule that BSc without an explicit year defaults the
    year to "3" (BSc courses are Year 3 top-ups only). -/
def extractQueryMetadata (query : String) (hist : List Msg) : QueryMetadata :=
  let cc := queryCourseContext query hist
  let y := findYearB (lowerChars query)
  let y2 := if cc == some "BSc" && y.isNone then some "3" else y
  { year := y2, courseContext := cc }

/-- C9: whenever the extracted track context is BSc and no explicit year pattern
    matched the query, the metadata year defaults to "3"; when an explicit year
    is present, that year is kept. -/
theorem c9_bsc_defaults_to_year_three (query : String) (hist : List Msg)
    (hbsc : queryCourseContext query hist = some "BSc") :
    (findYearB (lowerChars query) = none →
      (extractQueryMetadata query hist).year = some "3") ∧
    (∀ y : String, findYearB (lowerChars query) = some y →
      (extractQueryMetadata query hist).year = some y) := by
  constructor
  · intro hnone
    simp [extractQueryMetadata, hbsc, hnone]
  · intro y hy
    simp [extractQueryMetadata, hbsc, hy]

/-- Witness for C9: the query "bsc modules please" has BSc context and no year
    pattern, so the year filter defaults to "3"; the query "bsc year 2 modules"
    keeps its explicit year. -/
theorem c9_witness :
    (extractQueryMetadata "bsc modules please" []).year = some "3" ∧
    (extractQueryMetadata "bsc year 2 modules" []).year = some "2" := by
  constructor
  · exact (c9_bsc_defaults_to_year_three "bsc modules please" [] (by decide)).1
      (by decide)
  · exact (c9_bsc_defaults_to_year_three "bsc year 2 modules" [] (by decide)).2
      "2" (by decide)

/-! ## Ambiguity Analyzer (analyzeMatchesForSuggestions) -/

/-- An element of a type group: the object pushed per match, with the 1-based
    index, score, metadata and the underlying match (of which only the id is
    ever read downstream, via item.match?.id). -/
structure AnalysisItem where
  index : Nat
  score : ℚ
  metadata : Metadata
  matchId : String
deriving DecidableEq, Repr

/-- A cluster of near-equal matches of one entity type (a RecordCluster). -/
structure SuggestionGroup where
  type : String
  count : Nat
  items : List AnalysisItem
  avgScore : ℚ
deriving DecidableEq, Repr

/-- The output object of analyzeMatchesForSuggestions. -/
structure MatchAnalysis where
  hasSuggestions : Bool
  suggestions : List SuggestionGroup
  totalMatches : Nat
  typeBreakdown : List (String × Nat)
deriving DecidableEq, Repr

/-- Append an item to its type group, creating the group at the end on first
    occurrence (JavaScript object keys iterate in insertion order). -/
def addToGroups (gs : List (String × List AnalysisItem)) (ty : String)
    (it : AnalysisItem) : List (String × List AnalysisItem) :=
  match gs with
  | [] => [(ty, [it])]
  | (t, its) :: rest =>
      if t == ty then (t, its ++ [it]) :: rest
      else (t, its) :: addToGroups rest ty it

/-- The typeGroups object: matches grouped by metadata?.type || 'unknown'. -/
def buildTypeGroups (ms : List Record) : List (String × List AnalysisItem) :=
  ms.enum.foldl
    (fun gs p =>
      addToGroups gs (jsOrStr (getMeta p.2.metadata "type") "unknown")
        ⟨p.1 + 1, p.2.score, p.2.metadata, p.2.id⟩)
    []

/-- The tolerance filter of one type group: the source takes the score of the
    first item of the group as topScore (the group is in match order, not
    re-sorted) and keeps items with topScore - score strictly below the
    tolerance. -/
def similarItems (tol : ℚ) : List AnalysisItem → List AnalysisItem
  | [] => []
  | top :: rest =>
      (top :: rest).filter (fun it => decide (top.score - it.score < tol))

/-- Average score of a cluster (reduce of scores over length). -/
def avgScore (items : List AnalysisItem) : ℚ :=
  (items.foldl (fun s it => s + it.score) 0) / (items.length : ℚ)

/-- The per-type-group cluster decision: assessments use the wider 0.20
    tolerance, modules and courses 0.15, and a cluster needs at least two
    surviving members (the source also requires at least two raw members,
    which is implied). -/
def groupSuggestion (ty : String) (items : List AnalysisItem) :
    Option SuggestionGroup :=
  if ty == "assessment" && decide (2 ≤ items.length) then
    let sims := similarItems 0.20 items
    if decide (2 ≤ sims.length) then some ⟨ty, sims.length, sims, avgScore sims⟩
    else none
  else if ty == "module" && decide (2 ≤ items.length) then
    let sims := similarItems 0.15 items
    if decide (2 ≤ sims.length) then some ⟨ty, sims.length, sims, avgScore sims⟩
    else none
  else if (ty == "course_overview" || ty == "course") && decide (2 ≤ items.length) then
    let sims := similarItems 0.15 items
    if decide (2 ≤ sims.length) then some ⟨ty, sims.length, sims, avgScore sims⟩
    else none
  else none

/-- The suggestions collected from the per-type groups in insertion order. -/
def typeGroupSuggestions (gs : List (String × List AnalysisItem)) :
    List SuggestionGroup :=
  gs.foldl
    (fun acc g =>
      match groupSuggestion g.1 g.2 with
      | some s => acc ++ [s]
      | none => acc)
    []

/-- Test of /deadline|due|submit|when/i for the cross-type fallback. -/
def hasDeadlineQueryB (q : String) : Bool :=
  anySubstr ["deadline", "due", "submit", "when"] q

/-- Test of /tell me|what|show|list|information/i for the cross-type fallback. -/
def hasGeneralQueryB (q : String) : Bool :=
  anySubstr ["tell me", "what", "show", "list", "information"] q

/-- Insertion-ordered set insertion (JavaScript Set.add). -/
def insertUniqueOpt (l : List (Option String)) (x : Option String) :
    List (Option String) :=
  if l.contains x then l else l ++ [x]

/-- The top high-scoring items considered by the cross-type fallback. -/
def mixedTopItems (ms : List Record) : List Record :=
  (ms.filter (fun m => decide ((0.4 : ℚ) ≤ m.score))).take 8

/-- The set of entity types among the top items. -/
def mixedTopTypes (ms : List Record) : List (Option String) :=
  (mixedTopItems ms).foldl
    (fun l m => insertUniqueOpt l (getMeta m.metadata "type")) []

/-- The cross-type fallback: when the query reads as deadline-ish or broad,
    at least two distinct types appear among the top items, and no type-level
    cluster was found, synthesize a single mixed cluster. -/
def mixedSuggestion (ms : List Record) (sugs : List SuggestionGroup)
    (query : String) : List SuggestionGroup :=
  if hasDeadlineQueryB query || hasGeneralQueryB query then
    let topItems := mixedTopItems ms
    let topTypes := mixedTopTypes ms
    if decide (2 ≤ topTypes.length) && sugs.isEmpty then
      let mixedItems := topItems.enum.map
        (fun p => (⟨p.1 + 1, p.2.score, p.2.metadata, p.2.id⟩ : AnalysisItem))
      sugs ++ [⟨"mixed", mixedItems.length, mixedItems, avgScore mixedItems⟩]
    else sugs
  else sugs

/-- Stable insertion of one element into a sorted prefix: the new element goes
    after every element the comparator keeps before it. -/
def insSortBy {α : Type} (le : α → α → Bool) (x : α) : List α → List α
  | [] => [x]
  | y :: ys => if le y x then y :: insSortBy le x ys else x :: y :: ys

/-- Stable sort (JavaScript Array.prototype.sort is stable). -/
def stableSortBy {α : Type} (le : α → α → Bool) (l : List α) : List α :=
  l.foldl (fun acc x => insSortBy le x acc) []

/-- analyzeMatchesForSuggestions from server.js. -/
def analyzeMatchesForSuggestions (ms : List Record) (query : String) :
    MatchAnalysis :=
  let typeGroups := buildTypeGroups ms
  let sugs0 := typeGroupSuggestions typeGroups
  let sugs1 := mixedSuggestion ms sugs0 query
  let sorted := stableSortBy
    (fun a b => decide ((b : SuggestionGroup).avgScore ≤ a.avgScore)) sugs1
  { hasSuggestions := !sorted.isEmpty
    suggestions := sorted
    totalMatches := ms.length
    typeBreakdown := typeGroups.map (fun g => (g.1, g.2.length)) }

/-! ## Suggestion Builder (extractSuggestionsFromMatches, buildSuggestionFromMatch) -/

/-- The queryContext object of extractSuggestionsFromMatches. -/
structure QueryIntent where
  wantsDeadline : Bool
  wantsAssessment : Bool
  wantsModule : Bool
  wantsCourse : Bool
  wantsTutor : Bool
  wantsCredits : Bool
  knownCourse : Option String
  knownModule : Option String
  knownYear : Option String
deriving DecidableEq, Repr

/-- Construction of the queryContext object from the raw query and the
    extracted conversation context. -/
def queryIntentOf (query : String) (cc : ConversationContext) : QueryIntent :=
  { wantsDeadline := anySubstr ["deadline", "due", "submit", "when", "date"] query
    wantsAssessment := anySubstr ["assessment", "essay", "exam", "coursework",
      "assignment", "portfolio", "presentation", "report", "task"] query
    wantsModule := anySubstr ["module", "unit", "subject", "course content",
      "learning", "teach"] query
    wantsCourse := anySubstr ["course", "programme", "program", "degree",
      "qualification"] query
    wantsTutor := anySubstr ["tutor", "teacher", "lecturer", "who teaches",
      "contact"] query
    wantsCredits := anySubstr ["credit", "points", "weighting"] query
    knownCourse := cc.course
    knownModule := cc.module
    knownYear := cc.year }

/-- One icon-plus-label detail of a suggestion tile. -/
structure Detail where
  icon : String
  label : String
deriving DecidableEq, Repr

/-- A user-facing clickable disambiguation option. -/
structure Suggestion where
  id : String
  title : String
  details : List Detail
  query : String
  score : ℚ
  type : String
  icon : String
  priority : ℚ
deriving DecidableEq, Repr

/-- Case-insensitive containment of optional strings
    (a.toLowerCase().includes(b.toLowerCase()); callers guard truthiness). -/
def optLowerIncludes (s sub : Option String) : Bool :=
  infixOfChars (lowerChars (sub.getD "")) (lowerChars (s.getD ""))

/-- buildSuggestionFromMatch from server.js. The id fallback of the source
    (Date.now()-plus-random, used only when item.match is undefined) is
    unreachable for items produced by the analyzer, which always sets match.
    The queryContext parameter is accepted and unused, as in the source. -/
def buildSuggestionFromMatch (item : AnalysisItem) (_qc : QueryIntent) : Suggestion :=
  let metadata := item.metadata
  let ty := jsOrStr (getMeta metadata "type") "unknown"
  let title :=
    if ty == "module" then
      jsOrStr (getMeta metadata "module_title") "Unknown Module"
    else if ty == "assessment" then
      if isTruthy (getMeta metadata "module_title") then
        jsOrStr (getMeta metadata "module_title") "" ++
          (if isTruthy (getMeta metadata "assessment_type") then
            " (" ++ jsOrStr (getMeta metadata "assessment_type") "" ++ ")"
          else "")
      else jsOrStr (getMeta metadata "assessment_type") "Assessment"
    else if ty == "course_overview" || ty == "course" then
      jsOrStr (getMeta metadata "course_title") "Unknown Course"
    else
      jsOrStr (getMeta metadata "module_title")
        (jsOrStr (getMeta metadata "course_title")
          (jsOrStr (getMeta metadata "assessment_type") "Information"))
  let typeIcon :=
    if ty == "module" then "📚"
    else if ty == "assessment" then "📝"
    else if ty == "course_overview" || ty == "course" then "🎓"
    else "📄"
  let details :=
    (if ty == "module" then
      if isTruthy (getMeta metadata "year") && isTruthy (getMeta metadata "semester") then
        [⟨"📅", "Y" ++ jsOrStr (getMeta metadata "year") "" ++ " S" ++
          jsOrStr (getMeta metadata "semester") ""⟩]
      else if isTruthy (getMeta metadata "year") then
        [⟨"📅", "Year " ++ jsOrStr (getMeta metadata "year") ""⟩]
      else []
    else []) ++
    (if ty == "assessment" then
      (if isTruthy (getMeta metadata "deadline") then
        [(⟨"⏰", jsOrStr (getMeta metadata "deadline") ""⟩ : Detail)]
      else []) ++
      (if isTruthy (getMeta metadata "weight") then
        [(⟨"⚖️", jsOrStr (getMeta metadata "weight") ""⟩ : Detail)]
      else [])
    else []) ++
    (if ty == "course_overview" || ty == "course" then
      if isTruthy (getMeta metadata "level") then
        [(⟨"📊", jsOrStr (getMeta metadata "level") ""⟩ : Detail)]
      else []
    else [])
  let moduleName := jsOrStr (getMeta metadata "module_title") title
  let courseName := jsOrStr (getMeta metadata "course_title") title
  let clickQuery :=
    if ty == "module" then
      "What are the assessments and deadlines for " ++ moduleName ++ "?"
    else if ty == "assessment" then
      "Tell me about the " ++ jsOrStr (getMeta metadata "assessment_type") "assessment" ++
        " in " ++ jsOrStr (getMeta metadata "module_title") "this module"
    else if ty == "course_overview" || ty == "course" then
      "What modules are in " ++ courseName ++ "?"
    else
      "Tell me more about " ++ title
  { id := item.matchId
    title := title
    details := details.take 3
    query := clickQuery
    score := item.score
    type := ty
    icon := typeIcon
    priority := 0 }

/-- The uniqueness key of one candidate: raw type and the first truthy display
    field, rendered as a JavaScript template literal renders them. -/
def suggestionUniqueKey (md : Metadata) : String :=
  tmpl (getMeta md "type") ++ "-" ++
    tmpl (jsOrOpt (getMeta md "module_title")
      (jsOrOpt (getMeta md "course_title") (getMeta md "assessment_type")))

/-- One iteration of the candidate loop of extractSuggestionsFromMatches over a
    single cluster item: the seen-set update, the contextual hard-exclusion
    filter, the priority bonuses, and the candidate push. -/
def processSuggestionItem (qc : QueryIntent) (st : List String × List Suggestion)
    (item : AnalysisItem) : List String × List Suggestion :=
  let metadata := item.metadata
  let ty := getMeta metadata "type"
  let uniqueKey := suggestionUniqueKey metadata
  if st.1.contains uniqueKey then st
  else
    let seen := st.1 ++ [uniqueKey]
    let step1 : Bool × ℚ :=
      if isTruthy qc.knownCourse && isTruthy (getMeta metadata "course_code") then
        if optLowerIncludes (getMeta metadata "course_code") qc.knownCourse then
          (true, 0.3)
        else (false, 0)
      else (true, 0)
    let step2 : Bool × ℚ :=
      if isTruthy qc.knownYear && isTruthy (getMeta metadata "year") then
        if getMeta metadata "year" == qc.knownYear then (true, 0.2)
        else (false, 0)
      else (true, 0)
    let step3 : ℚ :=
      if isTruthy qc.knownModule && isTruthy (getMeta metadata "module_title") then
        if optLowerIncludes (getMeta metadata "module_title") qc.knownModule then 0.3
        else 0
      else 0
    let isRelevant := step1.1 && step2.1
    let relevanceScore := step1.2 + step2.2 + step3
    if isRelevant then
      let priority0 := item.score + relevanceScore
      let priority1 :=
        if qc.wantsAssessment && ty == some "assessment" then priority0 + 0.3
        else priority0
      let priority2 :=
        if qc.wantsModule && ty == some "module" then priority1 + 0.3 else priority1
      let priority3 :=
        if qc.wantsCourse && ty == some "course_overview" then priority2 + 0.3
        else priority2
      let priority4 :=
        if qc.wantsDeadline && ty == some "assessment" then priority3 + 0.2
        else priority3
      let sug := buildSuggestionFromMatch item qc
      (seen, st.2 ++ [{ sug with priority := priority4 }])
    else (seen, st.2)

/-- The full candidate collection over every item of every cluster. -/
def collectCandidates (qc : QueryIntent) (groups : List SuggestionGroup) :
    List Suggestion :=
  (groups.foldl (fun st g => g.items.foldl (processSuggestionItem qc) st)
    (([], []) : List String × List Suggestion)).2

/-- extractSuggestionsFromMatches from server.js: the context gate, the
    ambiguity gate, candidate collection, and the priority sort truncated to
    the top 3. The matches parameter is accepted and unused, as in the source. -/
def extractSuggestionsFromMatches (_ms : List Record)
    (matchAnalysis : MatchAnalysis) (query : String)
    (conversationHistory : List Msg) : List Suggestion :=
  let conversationContext := extractConversationContext conversationHistory query
  let hasEnoughContext :=
    conversationContext.hasSpecificCourse || conversationContext.hasSpecificModule ||
      conversationContext.hasSpecificAssessment || conversationContext.hasSpecificYear
  if !hasEnoughContext then []
  else if !matchAnalysis.hasSuggestions then []
  else
    let queryContext := queryIntentOf query conversationContext
    let candidateSuggestions := collectCandidates queryContext matchAnalysis.suggestions
    (stableSortBy (fun a b => decide ((b : Suggestion).priority ≤ a.priority))
      candidateSuggestions).take 3

/-! ### Suggestion Builder and Ambiguity Analyzer theorems -/

theorem similarItems_length_le (tol : ℚ) (items : List AnalysisItem) :
    (similarItems tol items).length ≤ items.length := by
  cases items with
  | nil => simp [similarItems]
  | cons top rest => exact List.length_filter_le _ _

theorem mixedSuggestion_of_nonempty (ms : List Record) (sugs : List SuggestionGroup)
    (q : String) (h : sugs.isEmpty = false) : mixedSuggestion ms sugs q = sugs := by
  unfold mixedSuggestion
  by_cases hq : (hasDeadlineQueryB q || hasGeneralQueryB q) = true
  · simp [hq, h]
  · simp [Bool.not_eq_true] at hq
    simp [hq]

/-- C1: the Suggestion Builder returns at most 3 suggestions for every input,
    and returns the empty list whenever the extracted ConversationContext has
    none of its specific flags set, regardless of whether ambiguity was
    detected. -/
theorem c1_suggestion_bound_and_gate (ms : List Record) (ma : MatchAnalysis)
    (query : String) (hist : List Msg) :
    (extractSuggestionsFromMatches ms ma query hist).length ≤ 3 ∧
    ((extractConversationContext hist query).hasSpecificCourse = false →
      (extractConversationContext hist query).hasSpecificModule = false →
      (extractConversationContext hist query).hasSpecificAssessment = false →
      (extractConversationContext hist query).hasSpecificYear = false →
      extractSuggestionsFromMatches ms ma query hist = []) := by
  constructor
  · have htake : ∀ l : List Suggestion, (List.take 3 l).length ≤ 3 := by
      intro l
      simp only [List.length_take]
      omega
    simp only [extractSuggestionsFromMatches]
    split
    · simp
    · split
      · simp
      · exact htake _
  · intro h1 h2 h3 h4
    unfold extractSuggestionsFromMatches
    simp [h1, h2, h3, h4]

/-- Witness for C1: the query "hello" with empty history sets no specific flag,
    so the builder returns the empty list even for an analysis that flags
    ambiguity. -/
theorem c1_witness :
    extractSuggestionsFromMatches [] ⟨true, [], 0, []⟩ "hello" [] = [] ∧
    (extractSuggestionsFromMatches [] ⟨true, [], 0, []⟩ "hello" []).length ≤ 3 := by
  constructor
  · exact (c1_suggestion_bound_and_gate [] ⟨true, [], 0, []⟩ "hello" []).2
      (by decide) (by decide) (by decide) (by decide)
  · exact (c1_suggestion_bound_and_gate [] ⟨true, [], 0, []⟩ "hello" []).1

/-- Records for the C7 boundary scenarios. -/
def c7asmA : Record := ⟨"a1", 0.90, [("type", "assessment")]⟩

def c7asmB : Record := ⟨"a2", 0.72, [("type", "assessment")]⟩

def c7modA : Record := ⟨"m1", 0.90, [("type", "module")]⟩

def c7modB : Record := ⟨"m2", 0.72, [("type", "module")]⟩

def c7asmC : Record := ⟨"b1", 0.90, [("type", "assessment")]⟩

def c7asmD : Record := ⟨"b2", 0.78, [("type", "assessment")]⟩

def c7modC : Record := ⟨"n1", 0.90, [("type", "module")]⟩

def c7modD : Record := ⟨"n2", 0.78, [("type", "module")]⟩

/-- C7: the tolerance boundary of the Ambiguity Analyzer. Scores 0.90 and 0.72
    (difference 0.18) form a retained cluster for the assessment tolerance 0.20
    and are rejected for the module tolerance 0.15; scores 0.90 and 0.78
    (difference 0.12) are retained under both. A member survives iff top minus
    its score is strictly below the per-type tolerance, and a cluster exists
    iff at least 2 members survive. -/
theorem c7_tolerance_boundary :
    (∀ q : String,
      ((analyzeMatchesForSuggestions [c7asmA, c7asmB] q).hasSuggestions = true ∧
        (analyzeMatchesForSuggestions [c7asmA, c7asmB] q).suggestions.map
          (fun g => (g.type, g.items.map AnalysisItem.matchId)) =
          [("assessment", ["a1", "a2"])]) ∧
      (analyzeMatchesForSuggestions [c7modA, c7modB] q).hasSuggestions = false ∧
      (analyzeMatchesForSuggestions [c7asmC, c7asmD] q).suggestions.map
        (fun g => (g.type, g.items.map AnalysisItem.matchId)) =
        [("assessment", ["b1", "b2"])] ∧
      (analyzeMatchesForSuggestions [c7modC, c7modD] q).suggestions.map
        (fun g => (g.type, g.items.map AnalysisItem.matchId)) =
        [("module", ["n1", "n2"])]) ∧
    (∀ (tol : ℚ) (top : AnalysisItem) (rest : List AnalysisItem) (it : AnalysisItem),
      it ∈ similarItems tol (top :: rest) ↔
        it ∈ top :: rest ∧ top.score - it.score < tol) ∧
    (∀ items : List AnalysisItem,
      ((groupSuggestion "assessment" items).isSome ↔
        2 ≤ (similarItems 0.20 items).length) ∧
      ((groupSuggestion "module" items).isSome ↔
        2 ≤ (similarItems 0.15 items).length)) := by
  refine ⟨?_, ?_, ?_⟩
  · intro q
    refine ⟨⟨?_, ?_⟩, ?_, ?_, ?_⟩ <;>
      norm_num +decide [analyzeMatchesForSuggestions, buildTypeGroups, addToGroups, jsOrStr,
        getMeta, List.find?, typeGroupSuggestions, groupSuggestion, similarItems,
        avgScore, mixedSuggestion, mixedTopItems, mixedTopTypes, insertUniqueOpt,
        stableSortBy, insSortBy, List.enum, List.enumFrom, List.filter,
        c7asmA, c7asmB, c7modA, c7modB, c7asmC, c7asmD, c7modC, c7modD]
  · intro tol top rest it
    simp [similarItems, List.mem_filter]
  · intro items
    constructor
    · unfold groupSuggestion
      by_cases h2 : 2 ≤ items.length
      · by_cases hs : 2 ≤ (similarItems (0.20 : ℚ) items).length
        · simp [h2, hs]
        · simp [h2, hs]
      · have hle := similarItems_length_le (0.20 : ℚ) items
        have : ¬ 2 ≤ (similarItems (0.20 : ℚ) items).length := by omega
        simp [h2, this]
    · unfold groupSuggestion
      by_cases h2 : 2 ≤ items.length
      · by_cases hs : 2 ≤ (similarItems (0.15 : ℚ) items).length
        · simp [h2, hs]
        · simp [h2, hs]
      · have hle := similarItems_length_le (0.15 : ℚ) items
        have : ¬ 2 ≤ (similarItems (0.15 : ℚ) items).length := by omega
        simp [h2, this]

/-- The C8 scenario query ("What\x27s the deadline for Academic Research?"). -/
def c8query : String := "What\x27s the deadline for Academic Research?"

/-- Conversation history mentioning Year 1. -/
def c8hist : List Msg := [⟨"user", "I am in Year 1"⟩]

/-- Year-1 module record of the C8 scenario. -/
def c8recA : Record :=
  ⟨"mod-ars", 0.873,
   [("type", "module"), ("module_title", "Academic Research and Study Skills"),
    ("year", "1")]⟩

/-- Year-2 module record of the C8 scenario. -/
def c8recB : Record :=
  ⟨"mod-aar", 0.851,
   [("type", "module"), ("module_title", "Advanced Academic Research"),
    ("year", "2")]⟩

/-- C8: end-to-end disambiguation. For the deadline query with Year-1 history
    and the two near-equal module records, the Ambiguity Analyzer reports
    ambiguity, the extracted year "1" is a specific context flag, and the
    Suggestion Builder returns exactly one Suggestion titled "Academic Research
    and Study Skills" — the year-2 record is hard-excluded for contradicting
    the known year. -/
theorem c8_end_to_end_disambiguation :
    (analyzeMatchesForSuggestions [c8recA, c8recB] c8query).hasSuggestions = true ∧
    (extractConversationContext c8hist c8query).hasSpecificYear = true ∧
    (extractConversationContext c8hist c8query).year = some "1" ∧
    (extractSuggestionsFromMatches [c8recA, c8recB]
        (analyzeMatchesForSuggestions [c8recA, c8recB] c8query) c8query c8hist).map
      Suggestion.title = ["Academic Research and Study Skills"] := by
  have hana : analyzeMatchesForSuggestions [c8recA, c8recB] c8query =
      ⟨true,
       [⟨"module", 2,
         [⟨1, 0.873, [("type", "module"),
            ("module_title", "Academic Research and Study Skills"), ("year", "1")],
           "mod-ars"⟩,
          ⟨2, 0.851, [("type", "module"),
            ("module_title", "Advanced Academic Research"), ("year", "2")],
           "mod-aar"⟩],
         0.862⟩],
       2, [("module", 2)]⟩ := by
    norm_num +decide [analyzeMatchesForSuggestions, buildTypeGroups, addToGroups,
      typeGroupSuggestions, groupSuggestion, similarItems, avgScore, mixedSuggestion,
      mixedTopItems, mixedTopTypes, insertUniqueOpt, stableSortBy, insSortBy,
      jsOrStr, getMeta, List.find?, List.enum, List.enumFrom, List.filter,
      c8recA, c8recB]
  refine ⟨by rw [hana], ?_, ?_, ?_⟩
  · decide
  · decide
  · rw [hana]
    decide

/-! ## Vector-search collaborator and hierarchy expansion
    (queryPinecone, fetchHierarchicalRelatedItems, and the chat-route merge) -/

/-- A combined embed-plus-search request. The source first awaits an embedding
    of a query text and then awaits the vector search with options; both awaits
    throw into the same surrounding catch, so the pair is modelled as one
    oracle call keyed by the embedded text and the search options. -/
structure SearchRequest where
  queryText : String
  topK : Nat
  ns : String
  filter : List (String × String)
  minScore : ℚ
deriving DecidableEq, Repr

/-- The embed-plus-vector-search collaborator; .error models a thrown exception. -/
abbrev SearchOracle := SearchRequest → Except Unit (List Record)

/-- queryPinecone from server.js: the raw search response filtered by the
    client-side minimum-score floor. -/
def queryPinecone (search : SearchOracle) (req : SearchRequest) :
    Except Unit (List Record) :=
  match search req with
  | .error e => .error e
  | .ok ms => .ok (ms.filter (fun m => decide (req.minScore ≤ m.score)))

/-- normalizeModuleCode from server.js: strip square brackets, then trim.
    On the empty string (the only falsy string) the early return of the source
    yields the same empty string. -/
def normalizeModuleCode (code : String) : String :=
  jsTrim ⟨code.data.filter (fun ch => !(ch == '[' || ch == ']'))⟩

/-- Test of the assessment-intent regex of fetchHierarchicalRelatedItems. -/
def wantsAssessmentsQ (query : String) : Bool :=
  anySubstr ["assessment", "deadline", "due", "submit", "exam", "coursework",
    "essay", "presentation", "weight", "assignment", "task", "brief"] query

/-- Test of the module-intent regex of fetchHierarchicalRelatedItems. -/
def wantsModulesQ (query : String) : Bool :=
  anySubstr ["module", "unit", "subject", "what modules", "list modules",
    "course content"] query

/-- matches.some(m => m.metadata?.type === 'module'). -/
def mentionsModuleIn (ms : List Record) : Bool :=
  ms.any (fun m => getMeta m.metadata "type" == some "module")

/-- Insertion-ordered set insertion for strings (JavaScript Set.add). -/
def insertUniqueStr (l : List String) (x : String) : List String :=
  if l.contains x then l else l ++ [x]

/-- The courseCodes set: truthy course_code fields in match order. -/
def courseCodesOf (ms : List Record) : List String :=
  ms.foldl
    (fun acc m =>
      match getMeta m.metadata "course_code" with
      | some c => if c == "" then acc else insertUniqueStr acc c
      | none => acc)
    []

/-- The moduleCodes set: each truthy module_code followed, when different, by
    its normalized form. The separately tracked normalizedModuleCodes set of
    the source is written but never read afterwards, and is omitted. -/
def moduleCodesOf (ms : List Record) : List String :=
  ms.foldl
    (fun acc m =>
      match getMeta m.metadata "module_code" with
      | some c =>
          if c == "" then acc
          else
            let acc1 := insertUniqueStr acc c
            if normalizeModuleCode c == c then acc1
            else insertUniqueStr acc1 (normalizeModuleCode c)
      | none => acc)
    []

/-- The three-strategy assessment fetch for one module code: direct filter,
    normalized-code filter, then a broad type-filtered search re-filtered
    client-side on the normalized module code. -/
def fetchAssessmentsForModule (search : SearchOracle) (ns code : String) :
    Except Unit (List Record) :=
  match queryPinecone search
      ⟨"assessments deadlines for module " ++ code, 15, ns,
       [("type", "assessment"), ("module_code", code)], 0.15⟩ with
  | .error e => .error e
  | .ok a1 =>
      match
        (if a1.isEmpty then
          if !(normalizeModuleCode code == code) then
            queryPinecone search
              ⟨"assessments deadlines for module " ++ code, 15, ns,
               [("type", "assessment"), ("module_code", normalizeModuleCode code)],
               0.15⟩
          else Except.ok a1
        else Except.ok a1) with
      | .error e => .error e
      | .ok a2 =>
          if a2.isEmpty then
            match queryPinecone search
                ⟨"assessments deadlines for module " ++ code, 20, ns,
                 [("type", "assessment")], 0.3⟩ with
            | .error e => .error e
            | .ok broad =>
                Except.ok (broad.filter (fun m =>
                  match getMeta m.metadata "module_code" with
                  | some c => normalizeModuleCode c == normalizeModuleCode code
                  | none => false))
          else Except.ok a2

/-- The guarded push of fetched matches: each match is appended to the related
    items and its id recorded, unless the id was already fetched. -/
def addNonDupItems (st : List Record × List String) :
    List Record → List Record × List String
  | [] => st
  | m :: rest =>
      if st.2.contains m.id then addNonDupItems st rest
      else addNonDupItems (st.1 ++ [m], st.2 ++ [m.id]) rest

/-- A best-effort loop over codes: each iteration fetches and pushes, and a
    thrown iteration is caught, logged and skipped. -/
def catchLoop (fetch : String → Except Unit (List Record)) :
    List String → List Record × List String → List Record × List String
  | [], st => st
  | code :: rest, st =>
      match fetch code with
      | .error _ => catchLoop fetch rest st
      | .ok ms => catchLoop fetch rest (addNonDupItems st ms)

/-- The single-strategy module fetch for one course code. -/
def fetchModulesForCourse (search : SearchOracle) (ns code : String) :
    Except Unit (List Record) :=
  queryPinecone search
    ⟨"modules for course " ++ code, 20, ns,
     [("type", "module"), ("course_code", code)], 0.15⟩

/-- The course-overview fetch for one course code. -/
def fetchCourseOverview (search : SearchOracle) (ns code : String) :
    Except Unit (List Record) :=
  queryPinecone search
    ⟨"course overview " ++ code, 1, ns,
     [("type", "course_overview"), ("course_code", code)], 0.2⟩

/-- The course-overview loop: a course whose overview is already among the
    current matches is skipped; each iteration has its own try/catch. -/
def courseOverviewLoop (search : SearchOracle) (ns : String) (ms : List Record) :
    List String → List Record × List String → List Record × List String
  | [], st => st
  | code :: rest, st =>
      if ms.any (fun m =>
          getMeta m.metadata "type" == some "course_overview" &&
            getMeta m.metadata "course_code" == some code) then
        courseOverviewLoop search ns ms rest st
      else
        match fetchCourseOverview search ns code with
        | .error _ => courseOverviewLoop search ns ms rest st
        | .ok found => courseOverviewLoop search ns ms rest (addNonDupItems st found)

/-- fetchHierarchicalRelatedItems from server.js: assessments per module code
    (when assessments are wanted or a module was matched), modules per course
    code (when modules are wanted), and missing course overviews, all
    best-effort and threaded through one fetched-ids set seeded with the ids of
    the current matches. -/
def fetchHierarchicalRelatedItems (search : SearchOracle) (ms : List Record)
    (query : String) (ns : String) : List Record :=
  let st0 : List Record × List String := ([], ms.map Record.id)
  let st1 :=
    if (wantsAssessmentsQ query || mentionsModuleIn ms) &&
        !(moduleCodesOf ms).isEmpty then
      catchLoop (fetchAssessmentsForModule search ns) (moduleCodesOf ms) st0
    else st0
  let st2 :=
    if wantsModulesQ query && !(courseCodesOf ms).isEmpty then
      catchLoop (fetchModulesForCourse search ns) (courseCodesOf ms) st1
    else st1
  let st3 :=
    if !(courseCodesOf ms).isEmpty then
      courseOverviewLoop search ns ms (courseCodesOf ms) st2
    else st2
  st3.1

/-- The hierarchy merge of the chat route: hierarchical items whose id has not
    yet appeared are appended grouped as courses, then modules, then
    assessments (items of any other type are dropped by this partition). -/
def mergeHierarchical (ms hierarchicalItems : List Record) : List Record :=
  if hierarchicalItems.isEmpty then ms
  else
    let existingIds := ms.map Record.id
    let newItems := hierarchicalItems.filter (fun i => !existingIds.contains i.id)
    let assessments := newItems.filter
      (fun i => getMeta i.metadata "type" == some "assessment")
    let modules := newItems.filter
      (fun i => getMeta i.metadata "type" == some "module")
    let courses := newItems.filter
      (fun i => getMeta i.metadata "type" == some "course_overview")
    ms ++ courses ++ modules ++ assessments

/-- The context-assembly reordering of the chat route: courses, then modules,
    then assessments, then everything else, each stably filtered. -/
def organizedMatches (ms : List Record) : List Record :=
  let courseMatches := ms.filter
    (fun m => getMeta m.metadata "type" == some "course_overview")
  let moduleMatches := ms.filter
    (fun m => getMeta m.metadata "type" == some "module")
  let assessmentMatches := ms.filter
    (fun m => getMeta m.metadata "type" == some "assessment")
  let otherMatches := ms.filter (fun m =>
    !(getMeta m.metadata "type" == some "course_overview" ||
      getMeta m.metadata "type" == some "module" ||
      getMeta m.metadata "type" == some "assessment"))
  courseMatches ++ moduleMatches ++ assessmentMatches ++ otherMatches

/-- Position of an entity type in the hierarchy ordering used downstream. -/
def typeRank (m : Record) : Nat :=
  if getMeta m.metadata "type" == some "course_overview" then 0
  else if getMeta m.metadata "type" == some "module" then 1
  else if getMeta m.metadata "type" == some "assessment" then 2
  else 3

/-! ### Merge and ordering theorems (C4) -/

theorem typeRank_of_course {m : Record}
    (h : (getMeta m.metadata "type" == some "course_overview") = true) :
    typeRank m = 0 := by
  simp [typeRank, h]

theorem typeRank_of_module {m : Record}
    (h : (getMeta m.metadata "type" == some "module") = true) :
    typeRank m = 1 := by
  have he : getMeta m.metadata "type" = some "module" := by
    simpa using h
  simp [typeRank, he]

theorem typeRank_of_assessment {m : Record}
    (h : (getMeta m.metadata "type" == some "assessment") = true) :
    typeRank m = 2 := by
  have he : getMeta m.metadata "type" = some "assessment" := by
    simpa using h
  simp [typeRank, he]

theorem typeRank_of_other {m : Record}
    (h0 : (getMeta m.metadata "type" == some "course_overview") = false)
    (h1 : (getMeta m.metadata "type" == some "module") = false)
    (h2 : (getMeta m.metadata "type" == some "assessment") = false) :
    typeRank m = 3 := by
  simp [typeRank, h0, h1, h2]

theorem pairwise_rank_of_const {l : List Record} {i : Nat}
    (h : ∀ a ∈ l, typeRank a = i) :
    l.Pairwise (fun a b => typeRank a ≤ typeRank b) := by
  induction l with
  | nil => exact List.Pairwise.nil
  | cons a t ih =>
      refine List.Pairwise.cons ?_ (ih (fun b hb => h b (List.mem_cons_of_mem _ hb)))
      intro b hb
      rw [h a (List.mem_cons_self _ _), h b (List.mem_cons_of_mem _ hb)]

theorem organizedMatches_eq (l : List Record) :
    organizedMatches l =
      l.filter (fun m => getMeta m.metadata "type" == some "course_overview") ++
        (l.filter (fun m => getMeta m.metadata "type" == some "module") ++
          (l.filter (fun m => getMeta m.metadata "type" == some "assessment") ++
            l.filter (fun m =>
              !(getMeta m.metadata "type" == some "course_overview" ||
                getMeta m.metadata "type" == some "module" ||
                getMeta m.metadata "type" == some "assessment")))) := by
  simp only [organizedMatches, List.append_assoc]

theorem organizedMatches_perm (ms : List Record) : (organizedMatches ms).Perm ms := by
  induction ms with
  | nil => simp [organizedMatches_eq]
  | cons m t ih =>
      rw [organizedMatches_eq] at ih ⊢
      by_cases h0 : (getMeta m.metadata "type" == some "course_overview") = true
      · have he : getMeta m.metadata "type" = some "course_overview" := by
          simpa using h0
        simp only [List.filter_cons, he, show ((some "course_overview" :
            Option String) == some "course_overview") = true by decide,
          show ((some "course_overview" : Option String) == some "module") = false by
            decide,
          show ((some "course_overview" : Option String) == some "assessment") =
            false by decide,
          if_true, if_false, Bool.false_or, Bool.true_or, Bool.not_true,
          Bool.false_eq_true, if_neg, List.cons_append]
        exact ih.cons m
      · by_cases h1 : (getMeta m.metadata "type" == some "module") = true
        · have he : getMeta m.metadata "type" = some "module" := by simpa using h1
          have h0f : (getMeta m.metadata "type" == some "course_overview") = false := by
            simp [he]
          have h2f : (getMeta m.metadata "type" == some "assessment") = false := by
            simp [he]
          simp only [List.filter_cons, h0f, h1, h2f, if_true, Bool.false_eq_true,
            if_neg, Bool.false_or, Bool.or_false, Bool.not_true, if_false,
            List.cons_append]
          exact List.Perm.trans List.perm_middle (ih.cons m)
        · by_cases h2 : (getMeta m.metadata "type" == some "assessment") = true
          · have he : getMeta m.metadata "type" = some "assessment" := by
              simpa using h2
            have h0f : (getMeta m.metadata "type" == some "course_overview") =
                false := by simp [he]
            have h1f : (getMeta m.metadata "type" == some "module") = false := by
              simp [he]
            simp only [List.filter_cons, h0f, h1f, h2, if_true, Bool.false_eq_true,
              if_neg, Bool.false_or, Bool.or_false, Bool.not_true, if_false,
              List.cons_append]
            exact List.Perm.trans
              ((List.Perm.append_left _ List.perm_middle).trans List.perm_middle)
              (ih.cons m)
          · simp only [Bool.not_eq_true] at h0 h1 h2
            simp only [List.filter_cons, h0, h1, h2, Bool.false_eq_true, if_neg,
              Bool.false_or, Bool.not_false, if_true, List.cons_append]
            exact List.Perm.trans
              ((List.Perm.append_left _
                ((List.Perm.append_left _ List.perm_middle).trans
                  List.perm_middle)).trans List.perm_middle)
              (ih.cons m)

theorem organizedMatches_pairwise (ms : List Record) :
    (organizedMatches ms).Pairwise (fun a b => typeRank a ≤ typeRank b) := by
  rw [organizedMatches_eq]
  have hf0 : ∀ a ∈ ms.filter
      (fun m => getMeta m.metadata "type" == some "course_overview"),
      typeRank a = 0 :=
    fun a ha => typeRank_of_course (List.mem_filter.mp ha).2
  have hf1 : ∀ a ∈ ms.filter (fun m => getMeta m.metadata "type" == some "module"),
      typeRank a = 1 :=
    fun a ha => typeRank_of_module (List.mem_filter.mp ha).2
  have hf2 : ∀ a ∈ ms.filter
      (fun m => getMeta m.metadata "type" == some "assessment"),
      typeRank a = 2 :=
    fun a ha => typeRank_of_assessment (List.mem_filter.mp ha).2
  have hf3 : ∀ a ∈ ms.filter (fun m =>
      !(getMeta m.metadata "type" == some "course_overview" ||
        getMeta m.metadata "type" == some "module" ||
        getMeta m.metadata "type" == some "assessment")),
      typeRank a = 3 := by
    intro a ha
    have hp := (List.mem_filter.mp ha).2
    simp only [Bool.not_eq_true', Bool.or_eq_false_iff] at hp
    exact typeRank_of_other hp.1.1 hp.1.2 hp.2
  refine List.pairwise_append.mpr ⟨pairwise_rank_of_const hf0,
    List.pairwise_append.mpr ⟨pairwise_rank_of_const hf1,
      List.pairwise_append.mpr ⟨pairwise_rank_of_const hf2,
        pairwise_rank_of_const hf3, ?_⟩, ?_⟩, ?_⟩
  · intro a ha b hb
    rw [hf2 a ha, hf3 b hb]
    omega
  · intro a ha b hb
    rcases List.mem_append.mp hb with hb | hb
    · rw [hf1 a ha, hf2 b hb]
      omega
    · rw [hf1 a ha, hf3 b hb]
      omega
  · intro a ha b hb
    rcases List.mem_append.mp hb with hb | hb
    · rw [hf0 a ha, hf1 b hb]
      omega
    · rcases List.mem_append.mp hb with hb | hb
      · rw [hf0 a ha, hf2 b hb]
        omega
      · rw [hf0 a ha, hf3 b hb]
        omega

/-- C4: the merge step deduplicates by record id keeping the first-seen record
    — a record list holding an id exactly once keeps exactly that occurrence
    after merging in hierarchical items sharing the id — and the ordering
    handed to context assembly groups records by entity type in hierarchy
    order: course, module, assessment, then other types. -/
theorem c4_merge_dedup_and_hierarchy_order :
    (∀ (ms hs : List Record) (x : String),
      (ms.filter (fun r => r.id == x)).length = 1 →
      (mergeHierarchical ms hs).filter (fun r => r.id == x) =
        ms.filter (fun r => r.id == x)) ∧
    (∀ ms : List Record,
      (organizedMatches ms).Perm ms ∧
      (organizedMatches ms).Pairwise (fun a b => typeRank a ≤ typeRank b)) := by
  constructor
  · intro ms hs x hlen
    by_cases hemp : hs.isEmpty
    · simp [mergeHierarchical, hemp]
    · have hxmem : (ms.map Record.id).contains x = true := by
        have hne : ms.filter (fun r => r.id == x) ≠ [] := by
          intro hcon
          rw [hcon] at hlen
          simp at hlen
        rcases List.exists_mem_of_ne_nil _ hne with ⟨r, hr⟩
        have hrm := List.mem_filter.mp hr
        have hid : r.id = x := by simpa using hrm.2
        simp only [List.contains_eq_any_beq, List.any_eq_true]
        exact ⟨x, by simpa [hid] using List.mem_map_of_mem Record.id hrm.1, by simp⟩
      have hnew : ∀ i ∈ hs.filter (fun i => !(ms.map Record.id).contains i.id),
          (i.id == x) = false := by
        intro i hi
        have hp := (List.mem_filter.mp hi).2
        simp only [Bool.not_eq_true'] at hp
        apply Bool.eq_false_iff.mpr
        intro hbeq
        have hid : i.id = x := by simpa using hbeq
        rw [hid, hxmem] at hp
        cases hp
      have hdefm : mergeHierarchical ms hs =
          ms ++
            ((hs.filter (fun i => !(ms.map Record.id).contains i.id)).filter
              (fun i => getMeta i.metadata "type" == some "course_overview") ++
             ((hs.filter (fun i => !(ms.map Record.id).contains i.id)).filter
               (fun i => getMeta i.metadata "type" == some "module") ++
              (hs.filter (fun i => !(ms.map Record.id).contains i.id)).filter
               (fun i => getMeta i.metadata "type" == some "assessment"))) := by
        simp only [mergeHierarchical, hemp, Bool.false_eq_true, if_false,
          List.append_assoc]
      rw [hdefm]
      rw [List.filter_append, List.filter_append, List.filter_append]
      have hnil : ∀ (p : Record → Bool),
          ((hs.filter (fun i => !(ms.map Record.id).contains i.id)).filter p).filter
            (fun r => r.id == x) = [] := by
        intro p
        apply List.filter_eq_nil_iff.mpr
        intro a ha
        have ha2 := (List.mem_filter.mp ha).1
        have := hnew a ha2
        simp [this]
      rw [hnil, hnil, hnil]
      simp
  · intro ms
    exact ⟨organizedMatches_perm ms, organizedMatches_pairwise ms⟩

/-- Record with a duplicated id for the C4 witness. -/
def c4wA : Record := ⟨"a", 0.5, [("type", "module")]⟩

/-- Hierarchical record sharing the id of c4wA. -/
def c4wB : Record := ⟨"a", 0.6, [("type", "assessment")]⟩

/-- Witness for C4 at concrete inputs: the primary record with id "a" survives
    the merge with a same-id hierarchical record, and a singleton list is its
    own hierarchy ordering. -/
theorem c4_witness :
    (mergeHierarchical [c4wA] [c4wB]).filter (fun r => r.id == "a") =
      [c4wA].filter (fun r => r.id == "a") ∧
    (organizedMatches [c4wA]).Perm [c4wA] ∧
    (organizedMatches [c4wA]).Pairwise (fun a b => typeRank a ≤ typeRank b) :=
  ⟨c4_merge_dedup_and_hierarchy_order.1 [c4wA] [c4wB] "a" (by decide),
   (c4_merge_dedup_and_hierarchy_order.2 [c4wA]).1,
   (c4_merge_dedup_and_hierarchy_order.2 [c4wA]).2⟩

/-! ### Hierarchy-expansion isolation lemmas (C3) -/

theorem contains_iff_mem {l : List String} {x : String} :
    l.contains x = true ↔ x ∈ l := by
  simp

theorem addNonDup_seen_mono (ms : List Record) (st : List Record × List String)
    (s : String) (h : s ∈ st.2) : s ∈ (addNonDupItems st ms).2 := by
  induction ms generalizing st with
  | nil => simpa [addNonDupItems] using h
  | cons m rest ih =>
      by_cases hc : m.id ∈ st.2
      · simpa [addNonDupItems, hc] using ih st h
      · have hmem : s ∈ st.2 ++ [m.id] := List.mem_append_left _ h
        simpa [addNonDupItems, hc] using ih (st.1 ++ [m], st.2 ++ [m.id]) hmem

theorem addNonDup_mem_seen (ms : List Record) (st : List Record × List String)
    (m : Record) (h : m ∈ ms) : m.id ∈ (addNonDupItems st ms).2 := by
  induction ms generalizing st with
  | nil => cases h
  | cons a rest ih =>
      rcases List.mem_cons.mp h with heq | hmem
      · subst heq
        by_cases hc : m.id ∈ st.2
        · simpa [addNonDupItems, hc] using addNonDup_seen_mono rest st m.id hc
        · have hin : m.id ∈ st.2 ++ [m.id] := List.mem_append_right _ (by simp)
          simpa [addNonDupItems, hc] using
            addNonDup_seen_mono rest (st.1 ++ [m], st.2 ++ [m.id]) m.id hin
      · by_cases hc : a.id ∈ st.2
        · simpa [addNonDupItems, hc] using ih st hmem
        · simpa [addNonDupItems, hc] using ih (st.1 ++ [a], st.2 ++ [a.id]) hmem

theorem addNonDup_inv (ms : List Record) (base : List String)
    (st : List Record × List String) (h : st.2 = base ++ st.1.map Record.id) :
    (addNonDupItems st ms).2 = base ++ (addNonDupItems st ms).1.map Record.id := by
  induction ms generalizing st with
  | nil => simpa [addNonDupItems] using h
  | cons m rest ih =>
      by_cases hc : m.id ∈ st.2
      · simpa [addNonDupItems, hc] using ih st h
      · have hnew : (st.1 ++ [m], st.2 ++ [m.id]).2 =
            base ++ ((st.1 ++ [m], st.2 ++ [m.id]).1.map Record.id) := by
          simp [h, List.map_append]
        simpa [addNonDupItems, hc] using ih (st.1 ++ [m], st.2 ++ [m.id]) hnew

theorem addNonDup_acc_mono (ms : List Record) (st : List Record × List String)
    (r : Record) (h : r ∈ st.1) : r ∈ (addNonDupItems st ms).1 := by
  induction ms generalizing st with
  | nil => simpa [addNonDupItems] using h
  | cons m rest ih =>
      by_cases hc : m.id ∈ st.2
      · simpa [addNonDupItems, hc] using ih st h
      · have hmem : r ∈ st.1 ++ [m] := List.mem_append_left _ h
        simpa [addNonDupItems, hc] using ih (st.1 ++ [m], st.2 ++ [m.id]) hmem

theorem addNonDup_acc_from (ms : List Record) (st : List Record × List String)
    (r : Record) (h : r ∈ (addNonDupItems st ms).1) : r ∈ st.1 ∨ r ∈ ms := by
  induction ms generalizing st with
  | nil => exact Or.inl (by simpa [addNonDupItems] using h)
  | cons m rest ih =>
      by_cases hc : m.id ∈ st.2
      · rcases ih st (by simpa [addNonDupItems, hc] using h) with h2 | h2
        · exact Or.inl h2
        · exact Or.inr (List.mem_cons_of_mem _ h2)
      · rcases ih (st.1 ++ [m], st.2 ++ [m.id])
            (by simpa [addNonDupItems, hc] using h) with h2 | h2
        · rcases List.mem_append.mp h2 with h3 | h3
          · exact Or.inl h3
          · have : r = m := by simpa using h3
            exact Or.inr (by simp [this])
        · exact Or.inr (List.mem_cons_of_mem _ h2)

theorem addNonDup_fresh (ms : List Record) (base : List String)
    (st : List Record × List String)
    (hsub : ∀ s ∈ base, s ∈ st.2)
    (hacc : ∀ r ∈ st.1, ¬ r.id ∈ base) :
    ∀ r ∈ (addNonDupItems st ms).1, ¬ r.id ∈ base := by
  induction ms generalizing st with
  | nil => simpa [addNonDupItems] using hacc
  | cons m rest ih =>
      by_cases hc : m.id ∈ st.2
      · simpa [addNonDupItems, hc] using ih st hsub hacc
      · have hsub2 : ∀ s ∈ base, s ∈ st.2 ++ [m.id] :=
          fun s hs => List.mem_append_left _ (hsub s hs)
        have hacc2 : ∀ r ∈ st.1 ++ [m], ¬ r.id ∈ base := by
          intro r hr
          rcases List.mem_append.mp hr with h3 | h3
          · exact hacc r h3
          · have hrm : r = m := by simpa using h3
            subst hrm
            intro hbase
            exact hc (hsub r.id hbase)
        simpa [addNonDupItems, hc] using
          ih (st.1 ++ [m], st.2 ++ [m.id]) hsub2 hacc2

theorem catchLoop_seen_mono (f : String → Except Unit (List Record))
    (codes : List String) (st : List Record × List String) (s : String)
    (h : s ∈ st.2) : s ∈ (catchLoop f codes st).2 := by
  induction codes generalizing st with
  | nil => simpa [catchLoop] using h
  | cons c0 rest ih =>
      cases hf0 : f c0 with
      | error e => simpa [catchLoop, hf0] using ih st h
      | ok ms0 =>
          simpa [catchLoop, hf0] using
            ih (addNonDupItems st ms0) (addNonDup_seen_mono ms0 st s h)

theorem catchLoop_acc_mono (f : String → Except Unit (List Record))
    (codes : List String) (st : List Record × List String) (r : Record)
    (h : r ∈ st.1) : r ∈ (catchLoop f codes st).1 := by
  induction codes generalizing st with
  | nil => simpa [catchLoop] using h
  | cons c0 rest ih =>
      cases hf0 : f c0 with
      | error e => simpa [catchLoop, hf0] using ih st h
      | ok ms0 =>
          simpa [catchLoop, hf0] using
            ih (addNonDupItems st ms0) (addNonDup_acc_mono ms0 st r h)

theorem catchLoop_processed (f : String → Except Unit (List Record))
    (codes : List String) (st : List Record × List String) (c : String)
    (ms : List Record) (hf : f c = Except.ok ms) (hc : c ∈ codes) :
    ∀ m ∈ ms, m.id ∈ (catchLoop f codes st).2 := by
  revert hc
  induction codes generalizing st with
  | nil => intro hc; cases hc
  | cons c0 rest ih =>
      intro hc m hm
      rcases List.mem_cons.mp hc with heq | hmem
      · subst heq
        simpa [catchLoop, hf] using
          catchLoop_seen_mono f rest (addNonDupItems st ms) m.id
            (addNonDup_mem_seen ms st m hm)
      · cases hf0 : f c0 with
        | error e => simpa [catchLoop, hf0] using ih st hmem m hm
        | ok ms0 =>
            simpa [catchLoop, hf0] using ih (addNonDupItems st ms0) hmem m hm

theorem catchLoop_acc_pred (f : String → Except Unit (List Record))
    (P : Record → Prop) (codes : List String) (st : List Record × List String)
    (hok : ∀ c ms, f c = Except.ok ms → ∀ r ∈ ms, P r)
    (hacc : ∀ r ∈ st.1, P r) :
    ∀ r ∈ (catchLoop f codes st).1, P r := by
  induction codes generalizing st with
  | nil => simpa [catchLoop] using hacc
  | cons c0 rest ih =>
      cases hf0 : f c0 with
      | error e => simpa [catchLoop, hf0] using ih st hacc
      | ok ms0 =>
          have hacc2 : ∀ r ∈ (addNonDupItems st ms0).1, P r := by
            intro r hr
            rcases addNonDup_acc_from ms0 st r hr with h2 | h2
            · exact hacc r h2
            · exact hok c0 ms0 hf0 r h2
          simpa [catchLoop, hf0] using ih (addNonDupItems st ms0) hacc2

theorem catchLoop_inv (f : String → Except Unit (List Record))
    (codes : List String) (base : List String) (st : List Record × List String)
    (h : st.2 = base ++ st.1.map Record.id) :
    (catchLoop f codes st).2 = base ++ (catchLoop f codes st).1.map Record.id := by
  induction codes generalizing st with
  | nil => simpa [catchLoop] using h
  | cons c0 rest ih =>
      cases hf0 : f c0 with
      | error e => simpa [catchLoop, hf0] using ih st h
      | ok ms0 =>
          simpa [catchLoop, hf0] using
            ih (addNonDupItems st ms0) (addNonDup_inv ms0 base st h)

theorem catchLoop_fresh (f : String → Except Unit (List Record))
    (codes : List String) (base : List String) (st : List Record × List String)
    (hsub : ∀ s ∈ base, s ∈ st.2) (hacc : ∀ r ∈ st.1, ¬ r.id ∈ base) :
    ∀ r ∈ (catchLoop f codes st).1, ¬ r.id ∈ base := by
  induction codes generalizing st with
  | nil => simpa [catchLoop] using hacc
  | cons c0 rest ih =>
      cases hf0 : f c0 with
      | error e => simpa [catchLoop, hf0] using ih st hsub hacc
      | ok ms0 =>
          have hsub2 : ∀ s ∈ base, s ∈ (addNonDupItems st ms0).2 :=
            fun s hs => addNonDup_seen_mono ms0 st s (hsub s hs)
          simpa [catchLoop, hf0] using
            ih (addNonDupItems st ms0) hsub2 (addNonDup_fresh ms0 base st hsub hacc)

theorem courseLoop_acc_mono (search : SearchOracle) (ns : String)
    (ms : List Record) (codes : List String) (st : List Record × List String)
    (r : Record) (h : r ∈ st.1) :
    r ∈ (courseOverviewLoop search ns ms codes st).1 := by
  induction codes generalizing st with
  | nil => simpa [courseOverviewLoop] using h
  | cons c0 rest ih =>
      by_cases hg : (ms.any (fun m =>
          getMeta m.metadata "type" == some "course_overview" &&
            getMeta m.metadata "course_code" == some c0)) = true
      · simpa [courseOverviewLoop, hg] using ih st h
      · cases hf0 : fetchCourseOverview search ns c0 with
        | error e => simpa [courseOverviewLoop, hg, hf0] using ih st h
        | ok found =>
            simpa [courseOverviewLoop, hg, hf0] using
              ih (addNonDupItems st found) (addNonDup_acc_mono found st r h)

/-- C3: hierarchy expansion is failure-isolated. When the assessment fetch for
    one module code throws, the exception is caught inside that iteration of
    the per-module loop, so every primary match and (by id) every record
    fetched for any other module code is still present in the final merged
    list. The contract hypothesis records that the assessment collaborator is
    invoked with a type=assessment filter, so its results carry that type. -/
theorem c3_hierarchy_expansion_isolation
    (search : SearchOracle) (primary : List Record) (query ns : String)
    (m1 m2 : String) (items : List Record)
    (hshould : (wantsAssessmentsQ query || mentionsModuleIn primary) = true)
    (hm1 : m1 ∈ moduleCodesOf primary) (hm2 : m2 ∈ moduleCodesOf primary)
    (hne : m1 ≠ m2)
    (herr : fetchAssessmentsForModule search ns m1 = Except.error ())
    (hok : fetchAssessmentsForModule search ns m2 = Except.ok items)
    (hcontract : ∀ c its, fetchAssessmentsForModule search ns c = Except.ok its →
      ∀ r ∈ its, getMeta r.metadata "type" = some "assessment") :
    (∀ m ∈ primary, m ∈ mergeHierarchical primary
      (fetchHierarchicalRelatedItems search primary query ns)) ∧
    (∀ it ∈ items, ∃ r ∈ mergeHierarchical primary
      (fetchHierarchicalRelatedItems search primary query ns), r.id = it.id) := by
  have hprim : ∀ (hs : List Record) (m : Record), m ∈ primary →
      m ∈ mergeHierarchical primary hs := by
    intro hs m hm
    by_cases h : hs.isEmpty
    · simpa [mergeHierarchical, h] using hm
    · simp [mergeHierarchical, h, hm]
  have hmcne : (moduleCodesOf primary).isEmpty = false := by
    cases hmc : moduleCodesOf primary with
    | nil => rw [hmc] at hm2; cases hm2
    | cons a t => rfl
  have hcond : ((wantsAssessmentsQ query || mentionsModuleIn primary) &&
      !(moduleCodesOf primary).isEmpty) = true := by
    simp [hshould, hmcne]
  have hstA : ∀ r ∈ (catchLoop (fetchAssessmentsForModule search ns)
        (moduleCodesOf primary) ([], primary.map Record.id)).1,
      r ∈ fetchHierarchicalRelatedItems search primary query ns := by
    intro r hr
    unfold fetchHierarchicalRelatedItems
    simp only [hcond, if_true]
    split
    · apply courseLoop_acc_mono
      split
      · exact catchLoop_acc_mono _ _ _ r hr
      · exact hr
    · split
      · exact catchLoop_acc_mono _ _ _ r hr
      · exact hr
  have hinv : (catchLoop (fetchAssessmentsForModule search ns)
        (moduleCodesOf primary) ([], primary.map Record.id)).2 =
      primary.map Record.id ++
        (catchLoop (fetchAssessmentsForModule search ns)
          (moduleCodesOf primary) ([], primary.map Record.id)).1.map Record.id :=
    catchLoop_inv _ _ (primary.map Record.id) _ (by simp)
  have htypes : ∀ r ∈ (catchLoop (fetchAssessmentsForModule search ns)
        (moduleCodesOf primary) ([], primary.map Record.id)).1,
      getMeta r.metadata "type" = some "assessment" :=
    catchLoop_acc_pred _ _ _ _ hcontract (by intro r hr; cases hr)
  have hfresh : ∀ r ∈ (catchLoop (fetchAssessmentsForModule search ns)
        (moduleCodesOf primary) ([], primary.map Record.id)).1,
      ¬ r.id ∈ primary.map Record.id :=
    catchLoop_fresh _ _ (primary.map Record.id) _ (fun s hs => hs)
      (by intro r hr; cases hr)
  refine ⟨fun m hm => hprim _ m hm, ?_⟩
  intro it hit
  have hseen : it.id ∈ (catchLoop (fetchAssessmentsForModule search ns)
      (moduleCodesOf primary) ([], primary.map Record.id)).2 :=
    catchLoop_processed _ _ _ m2 items hok hm2 it hit
  rw [hinv] at hseen
  rcases List.mem_append.mp hseen with hbase | hacc
  · rcases List.mem_map.mp hbase with ⟨m, hm, hmid⟩
    exact ⟨m, hprim _ m hm, hmid⟩
  · rcases List.mem_map.mp hacc with ⟨r, hr, hrid⟩
    have hrh : r ∈ fetchHierarchicalRelatedItems search primary query ns := hstA r hr
    have hne2 : (fetchHierarchicalRelatedItems search primary query ns).isEmpty
        = false := by
      cases hh : fetchHierarchicalRelatedItems search primary query ns with
      | nil => rw [hh] at hrh; cases hrh
      | cons a t => rfl
    have hcontains : ((primary.map Record.id).contains r.id) = false := by
      apply Bool.eq_false_iff.mpr
      intro hcon
      exact hfresh r hr (contains_iff_mem.mp hcon)
    have hmerged : r ∈ mergeHierarchical primary
        (fetchHierarchicalRelatedItems search primary query ns) := by
      unfold mergeHierarchical
      simp only [hne2, Bool.false_eq_true, if_false]
      exact List.mem_append_right _
        (List.mem_filter.mpr ⟨List.mem_filter.mpr ⟨hrh, by simpa using hcontains⟩,
          by simp [htypes r hr]⟩)
    exact ⟨r, hmerged, hrid⟩

/-- Primary match with module code M1 for the C3 witness. -/
def c3wRecA : Record := ⟨"p1", 0.9, [("type", "module"), ("module_code", "M1")]⟩

/-- Primary match with module code M2 for the C3 witness. -/
def c3wRecB : Record := ⟨"p2", 0.8, [("type", "module"), ("module_code", "M2")]⟩

/-- Primary result set of the C3 witness. -/
def c3wPrimary : List Record := [c3wRecA, c3wRecB]

/-- Assessment-intent query of the C3 witness. -/
def c3wQuery : String := "assessment deadlines please"

/-- A collaborator that throws exactly on the direct M1 assessment filter. -/
def c3wSearch : SearchOracle := fun req =>
  if req.filter = [("type", "assessment"), ("module_code", "M1")] then Except.error ()
  else Except.ok []

theorem c3wSearch_results (req : SearchRequest) :
    queryPinecone c3wSearch req = Except.error () ∨
    queryPinecone c3wSearch req = Except.ok [] := by
  unfold queryPinecone c3wSearch
  by_cases hc : req.filter = [("type", "assessment"), ("module_code", "M1")]
  · simp [hc]
  · simp [hc]

theorem c3w_contract : ∀ c its,
    fetchAssessmentsForModule c3wSearch "" c = Except.ok its →
    ∀ r ∈ its, getMeta r.metadata "type" = some "assessment" := by
  intro c its h r hr
  exfalso
  unfold fetchAssessmentsForModule at h
  rcases c3wSearch_results ⟨"assessments deadlines for module " ++ c, 15, "",
      [("type", "assessment"), ("module_code", c)], 0.15⟩ with h1 | h1 <;> rw [h1] at h
  · cases h
  · simp only [List.isEmpty_nil, if_true] at h
    by_cases hn : (normalizeModuleCode c == c) = true
    · simp only [hn, Bool.not_true, Bool.false_eq_true, if_false, if_true,
        List.isEmpty_nil] at h
      rcases c3wSearch_results ⟨"assessments deadlines for module " ++ c, 20, "",
          [("type", "assessment")], 0.3⟩ with h3 | h3 <;> rw [h3] at h
      · cases h
      · simp only [List.filter_nil, Except.ok.injEq] at h
        rw [← h] at hr
        cases hr
    · have hn2 : (normalizeModuleCode c == c) = false := Bool.eq_false_iff.mpr hn
      simp only [hn2, Bool.not_false, if_true] at h
      rcases c3wSearch_results ⟨"assessments deadlines for module " ++ c, 15, "",
          [("type", "assessment"), ("module_code", normalizeModuleCode c)],
          0.15⟩ with h2 | h2 <;> rw [h2] at h
      · cases h
      · simp only [List.isEmpty_nil, if_true] at h
        rcases c3wSearch_results ⟨"assessments deadlines for module " ++ c, 20, "",
            [("type", "assessment")], 0.3⟩ with h3 | h3 <;> rw [h3] at h
        · cases h
        · simp only [List.filter_nil, Except.ok.injEq] at h
          rw [← h] at hr
          cases hr

/-- Witness for C3 at concrete inputs: the fetch for M1 throws, the fetch for
    M2 succeeds, and the first primary match is still in the merged list. -/
theorem c3_witness :
    c3wRecA ∈ mergeHierarchical c3wPrimary
      (fetchHierarchicalRelatedItems c3wSearch c3wPrimary c3wQuery "") :=
  (c3_hierarchy_expansion_isolation c3wSearch c3wPrimary c3wQuery "" "M1" "M2" []
    (by decide) (by decide) (by decide) (by decide) rfl rfl c3w_contract).1
    c3wRecA (by simp [c3wPrimary])

/-! ## Chat route (/api/chat): context assembly and the pipeline -/

/-- Integer index of a key among the priority fields; a missing key gets the
    list length, placing it after every priority field, exactly as the source
    comparator orders -1 entries last (stably). -/
def idxOfStr : List String → String → Nat
  | [], _ => 0
  | a :: t, k => if a == k then 0 else idxOfStr t k + 1

/-- The hierarchy-relevant metadata fields sorted to the front of each entry. -/
def priorityFields : List String :=
  ["type", "course_code", "module_code", "course_title", "module_title",
   "assessment_type"]

/-- Array.prototype.join with a separator. -/
def joinSep (sep : String) : List String → String
  | [] => ""
  | [x] => x
  | x :: y :: rest => x ++ sep ++ joinSep sep (y :: rest)

/-- Rendering of score.toFixed(1) for the nonnegative scores of this pipeline,
    with rounding to nearest (ties up). -/
def toFixed1 (q : ℚ) : String :=
  let n : Int := ⌊q * 10 + 1 / 2⌋
  toString (n / 10) ++ "." ++ toString ((n % 10).natAbs)

/-- JS spread of new Set(list.filter(Boolean)) over possibly-undefined strings. -/
def uniqueTruthy (l : List (Option String)) : List String :=
  l.foldl
    (fun acc o =>
      match o with
      | some s => if s == "" then acc else insertUniqueStr acc s
      | none => acc)
    []

/-- The filtered, priority-sorted metadata entries of one context document. -/
def metaEntriesFor (md : Metadata) : List (String × String) :=
  stableSortBy
    (fun a b => decide (idxOfStr priorityFields a.1 ≤ idxOfStr priorityFields b.1))
    (md.filter (fun kv =>
      !(kv.1 == "text" || kv.1 == "uploadTimestamp" || kv.1 == "namespace")))

/-- One document entry of the assembled context. -/
def contextPart (idx : Nat) (m : Record) : String :=
  let score := toFixed1 (m.score * 100)
  let metadataStr :=
    joinSep ", " ((metaEntriesFor m.metadata).map (fun kv => kv.1 ++ ": " ++ kv.2))
  "[Match " ++ toString (idx + 1) ++ "] (Relevance: " ++ score ++ "%)" ++
    (if metadataStr == "" then "" else " [" ++ metadataStr ++ "]") ++ "\n" ++
    jsOrStr (getMeta m.metadata "text") ""

/-- The plural type label of the ambiguity notice. -/
def typeLabel (ty : String) : String :=
  if ty == "assessment" then "assessments"
  else if ty == "module" then "modules"
  else if ty == "course_overview" then "courses"
  else ty ++ "s"

/-- One member line of the ambiguity notice. -/
def ambiguityItemLine (item : AnalysisItem) : String :=
  let title := jsOrStr
    (jsOrOpt (getMeta item.metadata "module_title")
      (jsOrOpt (getMeta item.metadata "course_title")
        (jsOrOpt (getMeta item.metadata "assessment_type")
          (getMeta item.metadata "type")))) "Unknown"
  let details :=
    (if isTruthy (getMeta item.metadata "year") then
      ["Year " ++ jsOrStr (getMeta item.metadata "year") ""] else []) ++
    (if isTruthy (getMeta item.metadata "semester") then
      ["Semester " ++ jsOrStr (getMeta item.metadata "semester") ""] else []) ++
    (if isTruthy (getMeta item.metadata "module_code") then
      ["Module: " ++ jsOrStr (getMeta item.metadata "module_code") ""] else []) ++
    (if isTruthy (getMeta item.metadata "course_code") then
      ["Course: " ++ jsOrStr (getMeta item.metadata "course_code") ""] else []) ++
    (if isTruthy (getMeta item.metadata "deadline") then
      ["Deadline: " ++ jsOrStr (getMeta item.metadata "deadline") ""] else [])
  "  • Match " ++ toString item.index ++ ": " ++ title ++
    (if details.isEmpty then "" else " (" ++ joinSep ", " details ++ ")") ++
    " - " ++ toFixed1 (item.score * 100) ++ "%\n"

/-- The machine-readable ambiguity notice injected into the context. -/
def ambiguityBlock (ma : MatchAnalysis) : String :=
  if ma.hasSuggestions then
    "\n⚠️ AMBIGUITY DETECTED: The search found multiple similar items that could match the student\x27s query:\n" ++
    joinSep "" (ma.suggestions.map (fun g =>
      "- " ++ toString g.count ++ " " ++ typeLabel g.type ++
        " with similar relevance (avg: " ++ toFixed1 (g.avgScore * 100) ++ "%)\n" ++
        joinSep "" (g.items.map ambiguityItemLine))) ++
    "\n**ACTION REQUIRED**: Present these as options to the student for clarification.\n"
  else ""

/-- The bounded context block handed to the generation collaborator (steps 4.5
    and the context build of the chat route). -/
def assembleContext (ms : List Record) (ma : MatchAnalysis) : String :=
  let organized := organizedMatches ms
  let courseMatches := ms.filter
    (fun m => getMeta m.metadata "type" == some "course_overview")
  let moduleMatches := ms.filter
    (fun m => getMeta m.metadata "type" == some "module")
  let assessmentMatches := ms.filter
    (fun m => getMeta m.metadata "type" == some "assessment")
  let hierarchySummary :=
    (if courseMatches.isEmpty then []
     else ["COURSES: " ++ joinSep ", "
        (uniqueTruthy (courseMatches.map (fun m => getMeta m.metadata "course_code")))]) ++
    (if moduleMatches.isEmpty then []
     else ["MODULES: " ++ joinSep ", "
        (uniqueTruthy (moduleMatches.map (fun m => getMeta m.metadata "module_code")))]) ++
    (if assessmentMatches.isEmpty then []
     else ["ASSESSMENTS: " ++ joinSep ", " (assessmentMatches.map (fun m =>
        jsOrStr (getMeta m.metadata "assessment_type") "Assessment" ++ " (" ++
          tmpl (getMeta m.metadata "module_code") ++ ")"))])
  let contextParts := organized.enum.map (fun p => contextPart p.1 p.2)
  "<CONTEXT>\nThe following are the top " ++ toString organized.length ++
    " most relevant items from the knowledge base, organized by hierarchy (Courses -> Modules -> Assessments).\nEach item includes a relevance score (higher = more relevant) and metadata to help you differentiate between similar items.\n\n📊 HIERARCHY OVERVIEW:\n" ++
    (if hierarchySummary.isEmpty then "No structured hierarchy data found."
     else joinSep "\n" hierarchySummary) ++
    "\n\n🔗 HIERARCHY LINKS (use these to find related items):\n- Assessments link to Modules via: module_code\n- Modules link to Courses via: course_code\n- When asked about assessments for a module, look for ALL items with type=assessment AND matching module_code\n- When asked about modules for a course, look for ALL items with type=module AND matching course_code\n" ++
    ambiguityBlock ma ++
    "\n--- DOCUMENTS ---\n\n" ++ joinSep "\n\n---\n\n" contextParts ++
    "\n</CONTEXT>"

/-- The context block of the no-match branch of the chat route (verbatim). -/
def noMatchContext : String :=
  "<CONTEXT>No specific information found. Available information includes: University Centre Leeds Sport courses for FD Sport Performance and Exercise (W_FD1099FR), including modules for Year 1 and Year 2, assessments, deadlines, tutors (Ruth Tolson, James Thwaite, Callum Lister, Matthew Mosalski), and academic calendar 2025-2026.</CONTEXT>"

/-- Test of the assessment-query regex that sizes topK and gates the secondary
    search. -/
def isAssessmentQuery (message : String) : Bool :=
  anySubstr ["assessment", "deadline", "exam", "coursework", "submission",
    "weighting", "grade", "due date"] message

/-- Test of the calendar regex of step 3.5. -/
def needsCalendar (message : String) : Bool :=
  anySubstr ["assessment", "deadline", "due", "academic week", "calendar",
    "start date", "end date", "holiday", "break"] message ||
    hasWeekDigit (lowerChars message)

/-- The query text whose embedding the searches use, after the course-context
    prefix enhancement of step 2. -/
def enhancedQueryOf (message : String) (hist : List Msg) : String :=
  let cc := (extractQueryMetadata message hist).courseContext
  let ql : String := ⟨lowerChars message⟩
  if isTruthy cc && !(strIncludes ql "bsc") && !(strIncludes ql "foundation") then
    if cc == some "BSc" then "BSc course Year 3: " ++ message
    else tmpl cc ++ " course: " ++ message
  else if strIncludes ql "bsc" && !(strIncludes ql "year") then
    "BSc Year 3: " ++ message
  else message

/-- The metadata filter actually sent: the extracted year if any (the internal
    _courseContext note is deleted before filtering). -/
def metadataFilterOf (message : String) (hist : List Msg) : List (String × String) :=
  match (extractQueryMetadata message hist).year with
  | some y => [("year", y)]
  | none => []

/-- The primary search request of step 3. -/
def primaryRequest (message : String) (hist : List Msg) (ns : String) : SearchRequest :=
  ⟨enhancedQueryOf message hist, if isAssessmentQuery message then 15 else 10, ns,
   metadataFilterOf message hist, 0.3⟩

/-- The relaxed retry request of step 4: no filter, lower floor, same embedding. -/
def relaxedRequest (message : String) (hist : List Msg) (ns : String) : SearchRequest :=
  ⟨enhancedQueryOf message hist, if isAssessmentQuery message then 15 else 10, ns,
   [], 0.2⟩

/-- The fixed academic-calendar request of step 3.5. -/
def calendarRequest (ns : String) : SearchRequest :=
  ⟨"academic calendar 2025-2026 start date end date holidays breaks exclusion dates",
   2, ns, [("type", "academic_calendar")], 0.2⟩

/-- The generic assessment-scoped secondary request of step 3.7. -/
def secondaryRequest (message : String) (hist : List Msg) (ns : String) :
    SearchRequest :=
  ⟨enhancedQueryOf message hist ++
    " assessment exam coursework submission deadline weighting", 10, ns,
   [("type", "assessment")], 0.25⟩

/-- One display source of the response object. -/
structure SourceEntry where
  id : Nat
  score : ℚ
  text : String
  metadata : Metadata
deriving DecidableEq, Repr

/-- The response object of the chat route. The wall-clock responseTime field is
    not modelled; the noMatches flag, present only on the no-match branch in
    the source, defaults to false elsewhere. -/
structure ChatResponse where
  response : String
  sources : List SourceEntry
  suggestions : List Suggestion
  noMatches : Bool
  cached : Bool
deriving DecidableEq, Repr

/-- The text-generation collaborator: query, assembled context (injected into
    the system prompt), and history; .error models a thrown exception. -/
abbrev GenOracle := String → String → List Msg → Except Unit String

/-- Array.prototype.splice(i, 0, ...new) insertion. -/
def spliceAt (l : List Record) (i : Nat) (new : List Record) : List Record :=
  l.take i ++ new ++ l.drop i

/-- The tail of the chat route from match analysis onwards: analysis, context
    assembly, generation, response formatting, and the cache write. -/
def finishChat (gen : GenOracle) (message : String) (hist : List Msg)
    (useCache : Bool) (st : CacheStore ChatResponse) (now : Nat) (ck : String)
    (matches3 : List Record) : Except Unit (ChatResponse × CacheStore ChatResponse) :=
  let matchAnalysis := analyzeMatchesForSuggestions matches3 message
  match gen message (assembleContext matches3 matchAnalysis) hist with
  | .error e => .error e
  | .ok aiResponse =>
      let sources := matches3.enum.map (fun p =>
        (⟨p.1 + 1, p.2.score, jsOrStr (getMeta p.2.metadata "text") "",
          p.2.metadata⟩ : SourceEntry))
      let suggestions := extractSuggestionsFromMatches matches3 matchAnalysis
        message hist
      let result : ChatResponse :=
        { response := aiResponse, sources := sources, suggestions := suggestions,
          noMatches := false, cached := false }
      Except.ok (result,
        if useCache then cacheQuery CACHE_MAX_SIZE st ck result now else st)

/-- The chat route after a non-empty retrieval: the calendar splice, hierarchy
    expansion and merge, the secondary assessment search and splice, then the
    finishing tail. -/
def chatMainPath (search : SearchOracle) (gen : GenOracle) (message : String)
    (hist : List Msg) (ns : String) (useCache : Bool)
    (st : CacheStore ChatResponse) (now : Nat) (ck : String)
    (matches0 : List Record) : Except Unit (ChatResponse × CacheStore ChatResponse) :=
  match (if needsCalendar message then queryPinecone search (calendarRequest ns)
    else Except.ok []) with
  | .error e => .error e
  | .ok calendarMatches =>
      let matches1 :=
        if calendarMatches.isEmpty then matches0 else calendarMatches ++ matches0
      let matches2 := mergeHierarchical matches1
        (fetchHierarchicalRelatedItems search matches1 message ns)
      match (if isAssessmentQuery message then
          queryPinecone search (secondaryRequest message hist ns)
        else Except.ok []) with
      | .error e => .error e
      | .ok secondaryMatches =>
          let newAssessments := secondaryMatches.filter
            (fun a => !(matches2.map Record.id).contains a.id)
          let matches3 :=
            if newAssessments.isEmpty then matches2
            else spliceAt matches2 (if needsCalendar message then 1 else 0)
              newAssessments
          finishChat gen message hist useCache st now ck matches3

/-- The /api/chat pipeline of server.js: cache read, metadata extraction and
    query enhancement (inside the request constructors), primary search,
    relaxed retry, the explicit no-match outcome, the main path, and the final
    response with its cache write. -/
def chatPipeline (search : SearchOracle) (gen : GenOracle) (message : String)
    (hist : List Msg) (ns : String) (useCache : Bool)
    (cache : CacheStore ChatResponse) (now : Nat) :
    Except Unit (ChatResponse × CacheStore ChatResponse) :=
  match (if useCache then getCachedQuery CACHE_TTL cache (cacheKey ns message) now
    else (none, cache)) with
  | (some cachedResult, st) => Except.ok ({ cachedResult with cached := true }, st)
  | (none, st) =>
      match queryPinecone search (primaryRequest message hist ns) with
      | .error e => .error e
      | .ok primaryMatches =>
          if primaryMatches.isEmpty then
            match queryPinecone search (relaxedRequest message hist ns) with
            | .error e => .error e
            | .ok relaxedMatches =>
                if relaxedMatches.isEmpty then
                  match gen message noMatchContext hist with
                  | .error e => .error e
                  | .ok helpfulResponse =>
                      Except.ok
                        ({ response := helpfulResponse, sources := [],
                           suggestions := [], noMatches := true, cached := false },
                         st)
                else
                  chatMainPath search gen message hist ns useCache st now
                    (cacheKey ns message) (primaryMatches ++ relaxedMatches)
          else
            chatMainPath search gen message hist ns useCache st now
              (cacheKey ns message) primaryMatches

/-- C2: when the primary search returns zero records above its floor and the
    relaxed retry (no filter, lower floor) also returns zero, the pipeline
    returns a success flagged noMatches with empty sources and suggestions —
    not an error — and the generation collaborator is still invoked with a
    context block that explicitly states no information was found. -/
theorem c2_no_match_outcome (search : SearchOracle) (gen : GenOracle)
    (message : String) (hist : List Msg) (ns : String) (useCache : Bool)
    (cache : CacheStore ChatResponse) (now : Nat) (ans : String)
    (hmiss : useCache = true →
      (getCachedQuery CACHE_TTL cache (cacheKey ns message) now).1 = none)
    (hprimary : queryPinecone search (primaryRequest message hist ns) = Except.ok [])
    (hrelaxed : queryPinecone search (relaxedRequest message hist ns) = Except.ok [])
    (hgen : gen message noMatchContext hist = Except.ok ans) :
    chatPipeline search gen message hist ns useCache cache now =
      Except.ok ({ response := ans, sources := [], suggestions := [],
                   noMatches := true, cached := false },
        if useCache then (getCachedQuery CACHE_TTL cache (cacheKey ns message) now).2
        else cache) ∧
    strIncludes noMatchContext "No specific information found" = true := by
  constructor
  · cases useCache with
    | false =>
        simp only [chatPipeline, Bool.false_eq_true, if_false, hprimary, hrelaxed,
          List.isEmpty_nil, if_true, hgen]
    | true =>
        rcases hq : getCachedQuery CACHE_TTL cache (cacheKey ns message) now
          with ⟨o, stq⟩
        have ho : o = none := by
          have h2 := hmiss rfl
          rw [hq] at h2
          exact h2
        subst ho
        simp only [chatPipeline, if_true, hq, hprimary, hrelaxed, List.isEmpty_nil,
          hgen]
  · decide

/-- Collaborator that finds nothing, for the C2 witness. -/
def c2wSearch : SearchOracle := fun _ => Except.ok []

/-- Generation collaborator of the C2 witness. -/
def c2wGen : GenOracle := fun _ _ _ => Except.ok "no info available"

/-- Witness for C2 at concrete inputs: both searches empty, caching off. -/
theorem c2_witness :
    chatPipeline c2wSearch c2wGen "unknown thing" [] "" false [] 0 =
      Except.ok ({ response := "no info available", sources := [],
                   suggestions := [], noMatches := true, cached := false }, []) ∧
    strIncludes noMatchContext "No specific information found" = true := by
  have h := c2_no_match_outcome c2wSearch c2wGen "unknown thing" [] "" false [] 0
    "no info available" (fun hcon => absurd hcon Bool.false_ne_true) rfl rfl rfl
  exact ⟨by simpa using h.1, h.2⟩

theorem lookupStore_cacheQuery_self {α : Type} (maxSize now : Nat)
    (st : CacheStore α) (key : String) (payload : α) :
    lookupStore (cacheQuery maxSize st key payload now) key = some ⟨payload, now⟩ := by
  unfold cacheQuery
  by_cases h : st.length ≥ maxSize
  · cases st with
    | nil => simp [h, lookupStore_mapSet_self]
    | cons kv rest => simp [h, lookupStore_mapSet_self]
  · simp [h, lookupStore_mapSet_self]

theorem getCachedQuery_miss_lookup {α : Type} (ttl : Nat) (cache : CacheStore α)
    (k : String) (now : Nat) (hnd : (cache.map Prod.fst).Nodup)
    (hm : (getCachedQuery ttl cache k now).1 = none) :
    lookupStore (getCachedQuery ttl cache k now).2 k = none := by
  unfold getCachedQuery at hm ⊢
  cases hl : lookupStore cache k with
  | none => simpa [hl] using hl
  | some e =>
      by_cases hexp : now - e.timestamp > ttl
      · simp [hl, hexp, lookupStore_mapDelete_self cache k hnd]
      · rw [hl] at hm
        simp [hexp] at hm

theorem finishChat_writes (gen : GenOracle) (message : String) (hist : List Msg)
    (st : CacheStore ChatResponse) (now : Nat) (ck : String) (ms3 : List Record)
    (resp : ChatResponse) (cache2 : CacheStore ChatResponse)
    (h : finishChat gen message hist true st now ck ms3 = Except.ok (resp, cache2)) :
    cache2 = cacheQuery CACHE_MAX_SIZE st ck resp now ∧ resp.noMatches = false := by
  unfold finishChat at h
  cases hg : gen message
      (assembleContext ms3 (analyzeMatchesForSuggestions ms3 message)) hist with
  | error e => simp only [hg] at h; cases h
  | ok a =>
      simp only [hg, if_true, Except.ok.injEq, Prod.mk.injEq] at h
      rcases h with ⟨h1, h2⟩
      rw [← h1]
      exact ⟨h2.symm, rfl⟩

theorem chatMainPath_writes (search : SearchOracle) (gen : GenOracle)
    (message : String) (hist : List Msg) (ns : String)
    (st : CacheStore ChatResponse) (now : Nat) (ck : String) (ms0 : List Record)
    (resp : ChatResponse) (cache2 : CacheStore ChatResponse)
    (h : chatMainPath search gen message hist ns true st now ck ms0 =
      Except.ok (resp, cache2)) :
    cache2 = cacheQuery CACHE_MAX_SIZE st ck resp now ∧ resp.noMatches = false := by
  unfold chatMainPath at h
  cases hc : (if needsCalendar message then queryPinecone search (calendarRequest ns)
      else Except.ok []) with
  | error e => simp only [hc] at h; cases h
  | ok cal =>
      simp only [hc] at h
      cases hs : (if isAssessmentQuery message then
          queryPinecone search (secondaryRequest message hist ns)
        else Except.ok []) with
      | error e => simp only [hs] at h; cases h
      | ok sec =>
          simp only [hs] at h
          exact finishChat_writes gen message hist st now ck _ resp cache2 h

/-- C10: the no-match outcome is never memoized — a pipeline run ending in the
    no-match branch writes no entry for its (namespace, query) key (the read
    may only lazily drop an already-expired entry), so a later identical query
    re-runs the pipeline — whereas every successful full pipeline run with
    caching enabled writes its result at that key. -/
theorem c10_no_match_never_cached :
    (∀ (search : SearchOracle) (gen : GenOracle) (message : String)
      (hist : List Msg) (ns : String) (useCache : Bool)
      (cache : CacheStore ChatResponse) (now : Nat) (ans : String)
      (resp : ChatResponse) (cache2 : CacheStore ChatResponse),
      (cache.map Prod.fst).Nodup →
      (useCache = true →
        (getCachedQuery CACHE_TTL cache (cacheKey ns message) now).1 = none) →
      queryPinecone search (primaryRequest message hist ns) = Except.ok [] →
      queryPinecone search (relaxedRequest message hist ns) = Except.ok [] →
      gen message noMatchContext hist = Except.ok ans →
      chatPipeline search gen message hist ns useCache cache now =
        Except.ok (resp, cache2) →
      (useCache = true → lookupStore cache2 (cacheKey ns message) = none) ∧
      (useCache = false → cache2 = cache)) ∧
    (∀ (search : SearchOracle) (gen : GenOracle) (message : String)
      (hist : List Msg) (ns : String) (cache : CacheStore ChatResponse)
      (now : Nat) (resp : ChatResponse) (cache2 : CacheStore ChatResponse),
      (getCachedQuery CACHE_TTL cache (cacheKey ns message) now).1 = none →
      chatPipeline search gen message hist ns true cache now =
        Except.ok (resp, cache2) →
      resp.noMatches = false →
      lookupStore cache2 (cacheKey ns message) = some ⟨resp, now⟩) := by
  constructor
  · intro search gen message hist ns useCache cache now ans resp cache2 hnd hmiss
      hprimary hrelaxed hgen hrun
    cases useCache with
    | false =>
        simp only [chatPipeline, Bool.false_eq_true, if_false, hprimary, hrelaxed,
          List.isEmpty_nil, if_true, hgen, Except.ok.injEq, Prod.mk.injEq] at hrun
        exact ⟨fun hcon => absurd hcon Bool.false_ne_true,
          fun _ => hrun.2.symm⟩
    | true =>
        rcases hq : getCachedQuery CACHE_TTL cache (cacheKey ns message) now
          with ⟨o, stq⟩
        have ho : o = none := by
          have h2 := hmiss rfl
          rw [hq] at h2
          exact h2
        subst ho
        simp only [chatPipeline, if_true, hq, hprimary, hrelaxed, List.isEmpty_nil,
          hgen, Except.ok.injEq, Prod.mk.injEq] at hrun
        refine ⟨fun _ => ?_, fun hcon => absurd hcon (by simp)⟩
        rw [← hrun.2]
        have := getCachedQuery_miss_lookup CACHE_TTL cache (cacheKey ns message)
          now hnd (hmiss rfl)
        rw [hq] at this
        exact this
  · intro search gen message hist ns cache now resp cache2 hmiss hrun hnm
    rcases hq : getCachedQuery CACHE_TTL cache (cacheKey ns message) now
      with ⟨o, stq⟩
    have ho : o = none := by
      rw [hq] at hmiss
      exact hmiss
    subst ho
    simp only [chatPipeline, if_true, hq] at hrun
    cases hp : queryPinecone search (primaryRequest message hist ns) with
    | error e => simp only [hp] at hrun; cases hrun
    | ok pms =>
        simp only [hp] at hrun
        by_cases hpe : pms.isEmpty = true
        · simp only [hpe, if_true] at hrun
          cases hr : queryPinecone search (relaxedRequest message hist ns) with
          | error e => simp only [hr] at hrun; cases hrun
          | ok rms =>
              simp only [hr] at hrun
              by_cases hre : rms.isEmpty = true
              · simp only [hre, if_true] at hrun
                cases hg : gen message noMatchContext hist with
                | error e => simp only [hg] at hrun; cases hrun
                | ok a =>
                    simp only [hg, Except.ok.injEq, Prod.mk.injEq] at hrun
                    rw [← hrun.1] at hnm
                    simp at hnm
              · have hre2 : rms.isEmpty = false := Bool.eq_false_iff.mpr hre
                simp only [hre2, Bool.false_eq_true, if_false] at hrun
                have hw := chatMainPath_writes search gen message hist ns stq now
                  (cacheKey ns message) (pms ++ rms) resp cache2 hrun
                rw [hw.1]
                exact lookupStore_cacheQuery_self CACHE_MAX_SIZE now stq
                  (cacheKey ns message) resp
        · have hpe2 : pms.isEmpty = false := Bool.eq_false_iff.mpr hpe
          simp only [hpe2, Bool.false_eq_true, if_false] at hrun
          have hw := chatMainPath_writes search gen message hist ns stq now
            (cacheKey ns message) pms resp cache2 hrun
          rw [hw.1]
          exact lookupStore_cacheQuery_self CACHE_MAX_SIZE now stq
            (cacheKey ns message) resp

/-- Record returned by the C10 witness collaborator. -/
def c10wRec : Record := ⟨"r1", 1, [("type", "general")]⟩

/-- Collaborator returning one high-scoring record, for the C10 witness. -/
def c10wSearch : SearchOracle := fun _ => Except.ok [c10wRec]

/-- Generation collaborator of the C10 witness. -/
def c10wGen : GenOracle := fun _ _ _ => Except.ok "answer"

/-- The response of the concrete successful C10 witness run. -/
def c10wResp : ChatResponse :=
  { response := "answer",
    sources := [⟨1, 1, "", [("type", "general")]⟩],
    suggestions := [], noMatches := false, cached := false }

/-- Witness for C10 at concrete inputs: a no-match run with caching enabled
    leaves no entry at its key, and a successful run writes its result there. -/
theorem c10_witness :
    lookupStore ([] : CacheStore ChatResponse) (cacheKey "" "unknown thing") =
      none ∧
    lookupStore (cacheQuery CACHE_MAX_SIZE ([] : CacheStore ChatResponse)
        (cacheKey "" "hi") c10wResp 0) (cacheKey "" "hi") =
      some ⟨c10wResp, 0⟩ := by
  constructor
  · have hrun : chatPipeline c2wSearch c2wGen "unknown thing" [] "" true [] 0 =
        Except.ok ({ response := "no info available", sources := [],
                     suggestions := [], noMatches := true, cached := false },
          []) := by
      simp only [chatPipeline, if_true, getCachedQuery, lookupStore, List.find?,
        Option.map_none', queryPinecone, c2wSearch, c2wGen, List.filter_nil,
        List.isEmpty_nil, if_true]
    exact (c10_no_match_never_cached.1 c2wSearch c2wGen "unknown thing" [] "" true
      [] 0 "no info available" _ _ (by simp) (fun _ => rfl) rfl rfl rfl hrun).1 rfl
  · have hrun : chatPipeline c10wSearch c10wGen "hi" [] "" true [] 0 =
        Except.ok (c10wResp, cacheQuery CACHE_MAX_SIZE []
          (cacheKey "" "hi") c10wResp 0) := by
      norm_num +decide [chatPipeline, chatMainPath, finishChat, getCachedQuery,
        lookupStore, List.find?, queryPinecone, c10wSearch, c10wGen, c10wRec,
        c10wResp, primaryRequest, relaxedRequest, List.filter,
        mergeHierarchical, fetchHierarchicalRelatedItems, spliceAt,
        extractSuggestionsFromMatches, List.enum, List.enumFrom, getMeta,
        jsOrStr]
    exact c10_no_match_never_cached.2 c10wSearch c10wGen "hi" [] "" [] 0 c10wResp
      (cacheQuery CACHE_MAX_SIZE [] (cacheKey "" "hi") c10wResp 0) rfl hrun rfl

end RagPipeline
